/-
  Verification of the summary-tasks-bot repository (Go) against its
  natural-language specification.

  The Go sources are shallowly embedded: pure helpers become Lean functions,
  the per-chat conversation state machine becomes a step function on an
  explicit state record, the preference store becomes an association list
  keyed by user id, and outbound side effects (Telegram sends, generator
  calls) are recorded as event lists.  Representation conventions, kept
  uniform through the file:

  * Go `int`/`int64` are modelled as `Int` (unbounded; all values compared by
    the program are far below the int64 range).
  * Go maps used by the program (`map[string][]string`, `map[int64]*UserSettings`,
    `map[string]Tariff`) are association lists; `for k := range m` iterates in
    list order (Go's iteration order is unspecified, and no verified claim
    depends on it); a nil map is the empty list.
  * Outbound messages are recorded by the message-catalog key used by the
    source (e.g. "limit_today", "cancelled"); generated digest text is
    recorded as the event "news".  Telegram message ids, which the source
    only stores to delete old prompts, are abstracted to 0.
  * Wall-clock values carry the projections the program reads (Year, YearDay,
    Hour, Minute, Sec, Nanosec, Unix); the location-dependent conversion
    `time.Unix(sec, 0)` to (Year, YearDay) is an explicit oracle parameter.
  * The OpenAI client is an oracle `Option (String → Option String)`
    (`none` models `s.openai == nil`); `log.Fatal` is a distinguished result.
-/
import Mathlib

namespace STB

/-! ### Small Go string helpers -/

/-- Restriction of Unicode simple case folding to the alphabets the program's
tokens use (ASCII and the basic Cyrillic block); models the per-rune folding
done by `strings.EqualFold`. -/
def caseFold (c : Char) : Char :=
  if 'A' ≤ c ∧ c ≤ 'Z' then Char.ofNat (c.toNat + 32)
  else if 'А' ≤ c ∧ c ≤ 'Я' then Char.ofNat (c.toNat + 32)
  else if c = 'Ё' then 'ё'
  else c

/-- `strings.EqualFold` on the strings the program compares. -/
def eqFold (a b : String) : Bool :=
  a.toList.map caseFold == b.toList.map caseFold

/-- Decimal digit test, as used by `strconv.Atoi` and `time.Parse`. -/
def isDigit (c : Char) : Bool := '0' ≤ c && c ≤ '9'

/-- Accumulate the value of a digit run; `none` if any character is not a
decimal digit. -/
def digitsVal : List Char → Nat → Option Nat
  | [], acc => some acc
  | c :: cs, acc =>
    if isDigit c then digitsVal cs (acc * 10 + (c.toNat - 48)) else none

/-- `strconv.Atoi`: optional sign followed by a non-empty digit run, nothing
else.  (Go additionally errors on int64 overflow; values that large are
rejected by every caller's range check anyway, so the unbounded model
branches identically.) -/
def atoi (s : String) : Option Int :=
  match s.toList with
  | [] => none
  | '+' :: cs =>
    match cs with
    | [] => none
    | _ => (digitsVal cs 0).map (fun n => (n : Int))
  | '-' :: cs =>
    match cs with
    | [] => none
    | _ => (digitsVal cs 0).map (fun n => -(n : Int))
  | cs => (digitsVal cs 0).map (fun n => (n : Int))

/-- Field splitter: walk the runes carrying the current field; a separator
flushes a non-empty current field. -/
def fieldsByAux (p : Char → Bool) : List Char → List Char → List (List Char)
  | [], cur => if cur.isEmpty then [] else [cur]
  | c :: cs, cur =>
    if p c then
      if cur.isEmpty then fieldsByAux p cs [] else cur :: fieldsByAux p cs []
    else fieldsByAux p cs (cur ++ [c])

/-- Maximal runs of non-separator characters (the semantics of
`strings.FieldsFunc`). -/
def fieldsBy (p : Char → Bool) (l : List Char) : List (List Char) :=
  fieldsByAux p l []

/-- `strings.FieldsFunc(text, r == ',' || r == ' ')`. -/
def fieldsFunc (text : String) : List String :=
  (fieldsBy (fun c => c == ',' || c == ' ') text.toList).map String.mk

/-- The white-space class of `unicode.IsSpace` restricted to the ASCII
characters that can occur in the texts under verification. -/
def goIsSpace (c : Char) : Bool :=
  c == ' ' || c == '\t' || c == '\n' || c == '\u000b' || c == '\u000c' || c == '\r'

/-- `strings.Fields`: maximal runs of non-whitespace. -/
def goFields (text : String) : List String :=
  (fieldsBy goIsSpace text.toList).map String.mk

/-- `strings.TrimSpace`. -/
def goTrim (s : String) : String :=
  String.mk (((s.toList.dropWhile goIsSpace).reverse.dropWhile goIsSpace).reverse)

/-- `strings.TrimPrefix(s, "@")`. -/
def trimAt (s : String) : String :=
  if s.startsWith "@" then s.drop 1 else s

/-- `strings.Split(s, sep)` for a one-character separator: every maximal
segment between separators, including empty ones. -/
def splitOnChar (sep : Char) : List Char → List (List Char)
  | [] => [[]]
  | c :: cs =>
    if c == sep then [] :: splitOnChar sep cs
    else
      match splitOnChar sep cs with
      | [] => [[c]]
      | f :: rest => (c :: f) :: rest

/-- `strings.ReplaceAll` for a non-empty pattern, over rune slices; `fuel`
bounds the recursion (each step consumes at least one rune, so the input
length is enough fuel). -/
def replaceAllFuel (pat rep : List Char) : Nat → List Char → List Char
  | 0, l => l
  | _ + 1, [] => []
  | fuel + 1, c :: cs =>
    if 0 < pat.length ∧ (c :: cs).take pat.length = pat then
      rep ++ replaceAllFuel pat rep fuel ((c :: cs).drop pat.length)
    else c :: replaceAllFuel pat rep fuel cs

/-- `strings.ReplaceAll` for a non-empty pattern, over rune slices. -/
def replaceAll (pat rep l : List Char) : List Char :=
  replaceAllFuel pat rep l.length l

/-- Loop body of `parseSelection`: walk the fields accumulating option values
for in-range, unseen indexes, stopping once `limit` values are collected. -/
def parseSelectionGo (opts : List String) (limit : Int) :
    List String → List Int → List String → List String
  | [], _, out => out
  | f :: fs, seen, out =>
    match atoi f with
    | none => parseSelectionGo opts limit fs seen out
    | some idx =>
      if idx < 1 || idx > (opts.length : Int) || seen.contains idx then
        parseSelectionGo opts limit fs seen out
      else
        let out := out ++ [opts.getD (idx - 1).toNat ""]
        if (out.length : Int) == limit then out
        else parseSelectionGo opts limit fs (seen ++ [idx]) out

/-- `parseSelection` (identical in every generation of the source): parse
comma or space separated option indexes, deduplicated, up to `limit`. -/
def parseSelection (text : String) (opts : List String) (limit : Int) : List String :=
  parseSelectionGo opts limit (fieldsFunc text) [] []

/-- `addCustomOption`: append the custom-category sentinel when allowed. -/
def addCustomOption (opts : List String) (allow : Bool) : List String :=
  if !allow then opts else opts ++ ["😇Своя категория"]

/-! ### Go maps as association lists -/

section Alist

variable {κ α : Type} [BEq κ]

/-- Go map read with `ok`: first matching entry. -/
def alistFind (l : List (κ × α)) (k : κ) : Option α :=
  (l.find? fun p => p.1 == k).map (·.2)

/-- `m[k] = v`: replace in place or append. -/
def alistPut (l : List (κ × α)) (k : κ) (v : α) : List (κ × α) :=
  if (l.find? fun p => p.1 == k).isSome then
    l.map fun p => if p.1 == k then (k, v) else p
  else l ++ [(k, v)]

/-- `delete(m, k)`. -/
def alistErase (l : List (κ × α)) (k : κ) : List (κ × α) :=
  l.filter fun p => !(p.1 == k)

end Alist

/-! ### Data model -/

/-- `map[string][]string` (the topics map) as an association list. -/
abbrev Topics := List (String × List String)

/-- First-match lookup; models reading a Go map entry (with `ok`). -/
def topicsFind (t : Topics) (k : String) : Option (List String) := alistFind t k

/-- `m[k]` without `ok`: the zero value `nil` (= `[]`) when absent. -/
def topicsIdx (t : Topics) (k : String) : List String :=
  (topicsFind t k).getD []

/-- `m[k] = v`: replace in place or append. -/
def topicsPut (t : Topics) (k : String) (v : List String) : Topics := alistPut t k v

/-- `delete(m, k)`. -/
def topicsErase (t : Topics) (k : String) : Topics := alistErase t k

/-- `for cat := range m` collecting keys (in model order). -/
def topicsKeys (t : Topics) : List String := t.map (·.1)

/-- `model.UserSettings`. -/
structure UserSettings where
  UserID : Int
  UserName : String
  Active : Bool
  Topics : Topics
  Frequency : Int
  Tariff : String
  LastScheduledSent : Int
  LastGetNewsNow : Int
  GetNewsNowCount : Int
  LastGetLast24h : Int
  GetLast24hCount : Int
  deriving Repr, DecidableEq, Inhabited

/-- The Go zero value of `model.UserSettings`. -/
def UserSettings.goZero : UserSettings :=
  { UserID := 0, UserName := "", Active := false, Topics := [], Frequency := 0,
    Tariff := "", LastScheduledSent := 0, LastGetNewsNow := 0,
    GetNewsNowCount := 0, LastGetLast24h := 0, GetLast24hCount := 0 }

/-- The persisted preference store, keyed by user id. -/
abbrev Store := List (Int × UserSettings)

def storeFind (st : Store) (id : Int) : Option UserSettings := alistFind st id

def storePut (st : Store) (id : Int) (s : UserSettings) : Store := alistPut st id s

/-- `config.Schedule`. -/
structure ScheduleCfg where
  FrequencyMinutes : Int
  TimeRange : String
  deriving Repr, DecidableEq

/-- `config.Limits`. -/
structure LimitsCfg where
  GetNewsNowPerDay : Int
  GetLast24hNewPerDay : Int
  CategoryLimit : Int
  InfoTypeLimit : Int
  deriving Repr, DecidableEq

/-- `config.GPTConfig`. -/
structure GPTConfig where
  Model : String
  PromptMain : String
  PromptLast24h : String
  MaxTokens : Int
  Style : String
  Volume : String
  deriving Repr, DecidableEq

/-- `config.Tariff`. -/
structure Tariff where
  Schedule : ScheduleCfg
  Limits : LimitsCfg
  GPT : GPTConfig
  AllowCustomCategory : Bool
  deriving Repr, DecidableEq

/-- The Go zero value of `config.Tariff` (result of reading a missing map key
without `ok`). -/
def Tariff.goZero : Tariff :=
  { Schedule := { FrequencyMinutes := 0, TimeRange := "" },
    Limits := { GetNewsNowPerDay := 0, GetLast24hNewPerDay := 0,
                CategoryLimit := 0, InfoTypeLimit := 0 },
    GPT := { Model := "", PromptMain := "", PromptLast24h := "",
             MaxTokens := 0, Style := "", Volume := "" },
    AllowCustomCategory := false }

/-- `map[string]Tariff` as an association list. -/
abbrev Tariffs := List (String × Tariff)

def tariffsFind (ts : Tariffs) (k : String) : Option Tariff := alistFind ts k

/-- The configuration surface the conversation engine reads. -/
structure Env where
  Tariffs : Tariffs
  categoryOptions : List String
  infoOptions : List String

/-- `tariff, ok := cfg.Tariffs[name]; if !ok { tariff = cfg.Tariffs["base"] }`:
the repeated fallback pattern.  When "base" is itself absent the Go map read
yields the zero value. -/
def resolveTariff (ts : Tariffs) (name : String) : Tariff :=
  match tariffsFind ts name with
  | some t => t
  | none => (tariffsFind ts "base").getD Tariff.goZero

/-- The parts of `telegram.Message` the handlers read. -/
structure Msg where
  ChatID : Int
  Username : String
  MessageID : Int
  Text : String
  deriving Repr, DecidableEq

/-- A wall-clock instant (`time.Now()`), carrying exactly the projections
the program reads.  The location-dependent conversion `time.Unix(sec, 0)` to
a (Year, YearDay) pair is passed separately as a calendar oracle
`cal : Int → Int × Int`. -/
structure GoTime where
  Year : Int
  YearDay : Int
  Hour : Int
  Minute : Int
  Sec : Int
  Nanosec : Int
  Unix : Int
  deriving Repr, DecidableEq

/-! ### The part_013 conversation engine (`package app`, file `app.go`) -/

/-- `convStage` (part_013); `stageNone` is the Go zero value `0`. -/
inductive convStage
  | stageNone
  | stageUpdateChoice
  | stageCategory
  | stageCustomCategory
  | stageInfoTypes
  | stageWelcome
  | stageGetNewsCategory
  | stageGetLast24hCategory
  | stageSelectManyExisting
  | stageDeleteChoice
  | stageSelectDelete
  | stageChooseCategoryCount
  | stageSetTariffUser
  | stageSetTariffChoice
  deriving Repr, DecidableEq

/-- `conversationState` (part_013). -/
structure conversationState where
  Stage : convStage
  Step : Int
  CurrentCat : String
  OldCat : String
  Topics : Topics
  UpdateTopics : Bool
  DeleteTopics : Bool
  CategoryLimit : Int
  InfoLimit : Int
  LastMsgID : Int
  AvailableCats : List String
  Settings : Option UserSettings
  AllowCustomCategory : Bool
  SelectedInfos : List String
  SelectedCats : List String
  TargetUser : String
  NewTariff : String
  deriving Repr, DecidableEq

/-- The Go zero value of `conversationState`. -/
def conversationState.goZero : conversationState :=
  { Stage := .stageNone, Step := 0, CurrentCat := "", OldCat := "", Topics := [],
    UpdateTopics := false, DeleteTopics := false, CategoryLimit := 0,
    InfoLimit := 0, LastMsgID := 0, AvailableCats := [], Settings := none,
    AllowCustomCategory := false, SelectedInfos := [], SelectedCats := [],
    TargetUser := "", NewTariff := "" }

/-- The content-generation calls the engine makes, as an oracle: `none`
models an error return.  (The `log.Fatal` path inside `service.GetNews` is
analysed separately for the scheduler; inside the dialog handlers only
success/failure is observable.) -/
structure GenOracle where
  getNews : UserSettings → Option String
  getNewsForCategory : UserSettings → String → Option String
  getLast24hNewsForCategory : UserSettings → String → Option String

/-- Result of handling one inbound message: the surviving session (`none`
when the session was removed from `a.convs`), the store after any
`repo.Save`, outbound sends (by message key), and generator calls made. -/
structure StepResult where
  conv : Option conversationState
  store : Store
  sends : List String
  genCalls : List String
  deriving Repr, DecidableEq

/-- `App.saveTopics` (part_013 lines 176-229): persist the working topics,
either updating the existing record (update flows) or creating a fresh one
with the "base" tariff (first-time setup, which also sends one immediately
generated digest). -/
def saveTopics (gen : GenOracle) (m : Msg) (c : conversationState) (st : Store) :
    StepResult :=
  if c.UpdateTopics then
    let settings :=
      match storeFind st m.ChatID with
      | some s => s
      | none => { UserSettings.goZero with UserID := m.ChatID, UserName := m.Username }
    let settings := { settings with Topics := c.Topics }
    { conv := none, store := storePut st m.ChatID settings,
      sends := ["settings_updated"], genCalls := [] }
  else
    let settings : UserSettings :=
      { UserSettings.goZero with
        UserID := m.ChatID, UserName := m.Username, Topics := c.Topics,
        Tariff := "base", LastScheduledSent := 0, LastGetNewsNow := 0,
        GetNewsNowCount := 0, Active := true }
    let st := storePut st m.ChatID settings
    match gen.getNews settings with
    | some _ => { conv := none, store := st,
                  sends := ["settings_saved", "news"], genCalls := ["GetNews"] }
    | none => { conv := none, store := st,
                sends := ["settings_saved"], genCalls := ["GetNews"] }

/-- Keep the session, record sends, leave the store untouched. -/
def keep (c : conversationState) (st : Store) (sends : List String) : StepResult :=
  { conv := some c, store := st, sends := sends, genCalls := [] }

/-- `case stageWelcome` of `continueConversation` (part_013). -/
def stepWelcome (env : Env) (m : Msg) (c : conversationState) (st : Store) :
    StepResult :=
  if goTrim m.Text == "Продолжить" then
    let t := resolveTariff env.Tariffs "base"
    keep { c with Step := 0, CategoryLimit := t.Limits.CategoryLimit,
                  InfoLimit := t.Limits.InfoTypeLimit,
                  AllowCustomCategory := t.AllowCustomCategory,
                  Stage := .stageChooseCategoryCount, LastMsgID := 0 }
      st ["prompt_choose_count"]
  else keep { c with LastMsgID := 0 } st ["press_continue"]

/-- `case stageChooseCategoryCount` of `continueConversation` (part_013). -/
def stepChooseCategoryCount (m : Msg) (c : conversationState) (st : Store) :
    StepResult :=
  match atoi (goTrim m.Text) with
  | none => keep { c with LastMsgID := 0 } st ["prompt_choose_count"]
  | some count =>
    if count < 1 || count > c.CategoryLimit then
      keep { c with LastMsgID := 0 } st ["prompt_choose_count"]
    else
      keep { c with CategoryLimit := count, Stage := .stageCategory, LastMsgID := 0 }
        st ["prompt_choose_category"]

/-- `case stageUpdateChoice` of `continueConversation` (part_013). -/
def stepUpdateChoice (m : Msg) (c : conversationState) (st : Store) : StepResult :=
  if eqFold m.Text "Готово" then
    { conv := none, store := st, sends := ["no_changes"], genCalls := [] }
  else
    let choice := parseSelection m.Text ["Обновить все", "Обновить несколько"] 1
    if choice.isEmpty then keep { c with LastMsgID := 0 } st ["choose_action"]
    else if choice.headD "" == "Обновить несколько" then
      keep { c with AvailableCats := topicsKeys c.Topics,
                    Stage := .stageSelectManyExisting, LastMsgID := 0 }
        st ["prompt_choose_existing_multi"]
    else
      keep { c with Topics := [], Step := 0, Stage := .stageCategory, LastMsgID := 0 }
        st ["prompt_choose_category"]

/-- `case stageDeleteChoice` of `continueConversation` (part_013). -/
def stepDeleteChoice (gen : GenOracle) (m : Msg) (c : conversationState)
    (st : Store) : StepResult :=
  if eqFold m.Text "Готово" then
    { conv := none, store := st, sends := ["no_changes"], genCalls := [] }
  else
    let choice := parseSelection m.Text ["Удалить все", "Удалить несколько"] 1
    if choice.isEmpty then keep { c with LastMsgID := 0 } st ["choose_delete_action"]
    else if choice.headD "" == "Удалить несколько" then
      keep { c with AvailableCats := topicsKeys c.Topics,
                    Stage := .stageSelectDelete, LastMsgID := 0 }
        st ["prompt_choose_delete_multi"]
    else
      saveTopics gen m { c with Topics := [] } st

/-- `case stageSelectManyExisting` of `continueConversation` (part_013). -/
def stepSelectManyExisting (m : Msg) (c : conversationState) (st : Store) :
    StepResult :=
  if eqFold m.Text "Готово" then
    if c.SelectedCats.isEmpty then
      { conv := none, store := st, sends := ["no_changes"], genCalls := [] }
    else
      keep { c with CategoryLimit := (c.SelectedCats.length : Int), Step := 0,
                    OldCat := c.SelectedCats.headD "", Stage := .stageCategory,
                    LastMsgID := 0 }
        st ["prompt_choose_new"]
  else
    let cats := parseSelection m.Text c.AvailableCats (c.AvailableCats.length : Int)
    if cats.isEmpty then keep { c with LastMsgID := 0 } st ["choose_category_number"]
    else
      let selected := cats.foldl
        (fun sc cat => if sc.contains cat then sc else sc ++ [cat]) c.SelectedCats
      keep { c with SelectedCats := selected, LastMsgID := 0 }
        st ["prompt_choose_existing_multi"]

/-- `case stageSelectDelete` of `continueConversation` (part_013). -/
def stepSelectDelete (gen : GenOracle) (m : Msg) (c : conversationState)
    (st : Store) : StepResult :=
  if eqFold m.Text "Готово" then
    if c.SelectedCats.isEmpty then
      { conv := none, store := st, sends := ["no_changes"], genCalls := [] }
    else
      let c := { c with Topics := c.SelectedCats.foldl topicsErase c.Topics }
      saveTopics gen m c st
  else
    let cats := parseSelection m.Text c.AvailableCats (c.AvailableCats.length : Int)
    if cats.isEmpty then keep { c with LastMsgID := 0 } st ["choose_category_number"]
    else
      let selected := cats.foldl
        (fun sc cat => if sc.contains cat then sc else sc ++ [cat]) c.SelectedCats
      keep { c with SelectedCats := selected, LastMsgID := 0 }
        st ["prompt_choose_delete_multi"]

/-- `case stageCategory` of `continueConversation` (part_013). -/
def stepCategory (env : Env) (gen : GenOracle) (m : Msg) (c : conversationState)
    (st : Store) : StepResult :=
  let opts := addCustomOption env.categoryOptions c.AllowCustomCategory
  if eqFold m.Text "Готово" then
    if c.Step == 0 then
      { conv := none, store := st, sends := ["no_changes"], genCalls := [] }
    else saveTopics gen m c st
  else
    let cats := parseSelection m.Text opts 1
    if cats.isEmpty then keep { c with LastMsgID := 0 } st ["choose_category_number"]
    else if c.AllowCustomCategory && cats.headD "" == "😇Своя категория" then
      keep { c with Stage := .stageCustomCategory, LastMsgID := 0 }
        st ["enter_custom_category"]
    else
      keep { c with CurrentCat := cats.headD "", SelectedInfos := [],
                    Stage := .stageInfoTypes, LastMsgID := 0 }
        st ["prompt_choose_info"]

/-- `case stageCustomCategory` of `continueConversation` (part_013). -/
def stepCustomCategory (m : Msg) (c : conversationState) (st : Store) : StepResult :=
  let words := goFields m.Text
  if words.length < 1 || words.length > 3 then
    keep { c with LastMsgID := 0 } st ["enter_words_1_3"]
  else
    keep { c with CurrentCat := String.intercalate " " words,
                  Stage := .stageInfoTypes, SelectedInfos := [], LastMsgID := 0 }
      st ["prompt_choose_info"]

/-- Selected-info accumulation loop of `case stageInfoTypes` (part_013 lines
700-711): add unseen values while below the tariff's info limit. -/
def addInfos (sel : List String) (infos : List String) (limit : Int) : List String :=
  infos.foldl
    (fun s inf => if !s.contains inf && (s.length : Int) < limit then s ++ [inf] else s)
    sel

/-- Merge loop of `case stageInfoTypes` (part_013 lines 732-744): append the
selected infos not already present for the category. -/
def mergeInfos (existing : List String) (infos : List String) : List String :=
  infos.foldl (fun ex inf => if ex.contains inf then ex else ex ++ [inf]) existing

/-- Commit block of `case stageInfoTypes` (part_013 lines 723-767): drop the
category being replaced, merge the selection for the current category,
advance the step counter, then persist or prompt for the next category. -/
def commitInfoTypes (gen : GenOracle) (m : Msg) (c : conversationState)
    (st : Store) : StepResult :=
  let c := if c.OldCat == "" then c
           else { c with Topics := topicsErase c.Topics c.OldCat, OldCat := "" }
  let existing := mergeInfos (topicsIdx c.Topics c.CurrentCat) c.SelectedInfos
  let c := { c with Topics := topicsPut c.Topics c.CurrentCat existing,
                    SelectedInfos := [], Step := c.Step + 1 }
  if c.Step ≥ c.CategoryLimit then saveTopics gen m c st
  else if 0 < c.SelectedCats.length ∧ c.Step < (c.SelectedCats.length : Int) then
    keep { c with OldCat := c.SelectedCats.getD c.Step.toNat "",
                  Stage := .stageCategory, LastMsgID := 0 }
      st ["prompt_choose_new"]
  else
    keep { c with Stage := .stageCategory, LastMsgID := 0 } st ["prompt_choose_category"]

/-- `case stageInfoTypes` of `continueConversation` (part_013 lines 676-767). -/
def stepInfoTypes (env : Env) (gen : GenOracle) (m : Msg) (c : conversationState)
    (st : Store) : StepResult :=
  if eqFold m.Text "Готово" then
    if c.SelectedInfos.isEmpty && (topicsIdx c.Topics c.CurrentCat).isEmpty then
      keep { c with LastMsgID := 0 } st ["prompt_choose_info"]
    else commitInfoTypes gen m c st
  else
    let infos := parseSelection m.Text env.infoOptions
      (c.InfoLimit - (c.SelectedInfos.length : Int))
    if infos.isEmpty then keep { c with LastMsgID := 0 } st ["prompt_choose_info"]
    else
      let c := { c with SelectedInfos := addInfos c.SelectedInfos infos c.InfoLimit }
      if (c.SelectedInfos.length : Int) < c.InfoLimit then
        keep { c with LastMsgID := 0 } st ["prompt_choose_info"]
      else commitInfoTypes gen m c st

/-- `case stageGetNewsCategory` of `continueConversation` (part_013 lines
768-803): on a valid category choice, reset the on-demand counter when the
calendar day changed, enforce the tariff's daily limit, then persist the
incremented counter and request generation. -/
def stepGetNewsCategory (env : Env) (gen : GenOracle) (cal : Int → Int × Int)
    (now : GoTime) (m : Msg) (c : conversationState) (st : Store) : StepResult :=
  let cats := parseSelection m.Text c.AvailableCats 1
  if cats.isEmpty then keep { c with LastMsgID := 0 } st ["choose_category_number"]
  else
    let settings := c.Settings.getD UserSettings.goZero
    let tariff := resolveTariff env.Tariffs settings.Tariff
    let last := cal settings.LastGetNewsNow
    let settings :=
      if now.YearDay ≠ last.2 ∨ now.Year ≠ last.1 then
        { settings with GetNewsNowCount := 0 }
      else settings
    if settings.GetNewsNowCount ≥ tariff.Limits.GetNewsNowPerDay then
      { conv := none, store := st, sends := ["limit_today"], genCalls := [] }
    else
      let settings := { settings with GetNewsNowCount := settings.GetNewsNowCount + 1,
                                      LastGetNewsNow := now.Unix }
      let st := storePut st m.ChatID settings
      match gen.getNewsForCategory settings (cats.headD "") with
      | none => { conv := none, store := st, sends := [],
                  genCalls := ["GetNewsForCategory"] }
      | some _ => { conv := none, store := st, sends := ["news"],
                    genCalls := ["GetNewsForCategory"] }

/-- `case stageGetLast24hCategory` of `continueConversation` (part_013 lines
805-835); the result send is recorded as one "news" event whether or not the
text needed chunking. -/
def stepGetLast24hCategory (gen : GenOracle) (m : Msg) (c : conversationState)
    (st : Store) : StepResult :=
  let cats := parseSelection m.Text c.AvailableCats 1
  if cats.isEmpty then keep { c with LastMsgID := 0 } st ["choose_category_number"]
  else
    let settings := c.Settings.getD UserSettings.goZero
    match gen.getLast24hNewsForCategory settings (cats.headD "") with
    | none => { conv := none, store := st, sends := ["wait_search"],
                genCalls := ["GetLast24hNewsForCategory"] }
    | some _ => { conv := none, store := st, sends := ["wait_search", "news"],
                  genCalls := ["GetLast24hNewsForCategory"] }

/-- `App.setUserTariff` (part_013 lines 407-427). -/
def setUserTariff (env : Env) (st : Store) (username tariff : String) :
    Except String Store :=
  match (st.map (·.2)).find? (fun u => eqFold u.UserName username) with
  | none => .error "user not found"
  | some user =>
    if (tariffsFind env.Tariffs tariff).isNone then .error "unknown tariff"
    else .ok (storePut st user.UserID { user with Tariff := tariff })

/-- `case stageSetTariffUser` of `continueConversation` (part_013). -/
def stepSetTariffUser (m : Msg) (c : conversationState) (st : Store) : StepResult :=
  let username := trimAt (goTrim m.Text)
  if username == "" then keep { c with LastMsgID := 0 } st ["enter_username"]
  else
    keep { c with TargetUser := username, Stage := .stageSetTariffChoice,
                  LastMsgID := 0 }
      st ["choose_tariff"]

/-- `case stageSetTariffChoice` of `continueConversation` (part_013). -/
def stepSetTariffChoice (env : Env) (m : Msg) (c : conversationState) (st : Store) :
    StepResult :=
  let choice := goTrim m.Text
  if choice ≠ "base" ∧ choice ≠ "plus" ∧ choice ≠ "premium" ∧ choice ≠ "ultimate" then
    keep { c with LastMsgID := 0 } st ["choose_tariff"]
  else
    let c := { c with NewTariff := choice }
    match setUserTariff env st c.TargetUser c.NewTariff with
    | .error _ => { conv := none, store := st, sends := ["tariff_error"], genCalls := [] }
    | .ok st' => { conv := none, store := st', sends := ["tariff_updated"], genCalls := [] }

/-- `App.continueConversation` (part_013 lines 429-868): dispatch the inbound
message to the handler of the session's current stage. -/
def continueConversation (env : Env) (gen : GenOracle) (cal : Int → Int × Int)
    (now : GoTime) (m : Msg) (c : conversationState) (st : Store) : StepResult :=
  match c.Stage with
  | .stageNone => keep c st []
  | .stageWelcome => stepWelcome env m c st
  | .stageChooseCategoryCount => stepChooseCategoryCount m c st
  | .stageUpdateChoice => stepUpdateChoice m c st
  | .stageDeleteChoice => stepDeleteChoice gen m c st
  | .stageSelectManyExisting => stepSelectManyExisting m c st
  | .stageSelectDelete => stepSelectDelete gen m c st
  | .stageCategory => stepCategory env gen m c st
  | .stageCustomCategory => stepCustomCategory m c st
  | .stageInfoTypes => stepInfoTypes env gen m c st
  | .stageGetNewsCategory => stepGetNewsCategory env gen cal now m c st
  | .stageGetLast24hCategory => stepGetLast24hCategory gen m c st
  | .stageSetTariffUser => stepSetTariffUser m c st
  | .stageSetTariffChoice => stepSetTariffChoice env m c st

/-- `App.handleGetNewsNowCommand` (part_013 lines 901-935): the `/get_news_now`
entry point.  Resets the on-demand counter when the calendar day changed,
refuses when the limit is already reached, otherwise opens a
`stageGetNewsCategory` session.  The day-reset here is applied to the local
copy only; nothing is persisted by this handler. -/
def handleGetNewsNowCommand (env : Env) (cal : Int → Int × Int) (now : GoTime)
    (m : Msg) (st : Store) : Option conversationState × Store × List String :=
  match storeFind st m.ChatID with
  | none => (none, st, ["start_first"])
  | some settings =>
    let tariff := resolveTariff env.Tariffs settings.Tariff
    let last := cal settings.LastGetNewsNow
    let settings :=
      if now.YearDay ≠ last.2 ∨ now.Year ≠ last.1 then
        { settings with GetNewsNowCount := 0 }
      else settings
    if settings.GetNewsNowCount ≥ tariff.Limits.GetNewsNowPerDay then
      (none, st, ["limit_today"])
    else if settings.Topics.isEmpty then (none, st, ["no_topics"])
    else
      let conv := { conversationState.goZero with
                    Stage := .stageGetNewsCategory, Settings := some settings,
                    AvailableCats := topicsKeys settings.Topics }
      (some conv, st, ["prompt_choose_news_cat"])

/-- Outcome of feeding a whole script of inbound texts to one session. -/
structure RunResult where
  conv : Option conversationState
  store : Store
  sends : List String
  genCalls : List String
  deriving Repr, DecidableEq

/-- Feed a list of inbound message texts (all from the same chat) to the
part_013 engine, one `continueConversation` call per text; when the session
is removed the remaining texts would start fresh commands and are not part
of the flow. -/
def runScript (env : Env) (gen : GenOracle) (cal : Int → Int × Int) (now : GoTime)
    (chat : Int) (uname : String) :
    List String → conversationState → Store → RunResult
  | [], c, st => { conv := some c, store := st, sends := [], genCalls := [] }
  | t :: ts, c, st =>
    let r := continueConversation env gen cal now
      { ChatID := chat, Username := uname, MessageID := 0, Text := t } c st
    match r.conv with
    | none => { conv := none, store := r.store, sends := r.sends, genCalls := r.genCalls }
    | some c' =>
      let rest := runScript env gen cal now chat uname ts c' r.store
      { conv := rest.conv, store := rest.store,
        sends := r.sends ++ rest.sends, genCalls := r.genCalls ++ rest.genCalls }

/-! ### The dispatch scheduler (part_013 lines 326-386) -/

/-- `time.Parse("15:04", s)`: a one- or two-digit hour below 24, a colon,
exactly two minute digits below 60, and nothing else. -/
def parseHM (s : String) : Option (Int × Int) :=
  match s.toList with
  | a :: b :: ':' :: c :: d :: [] =>
    if isDigit a && isDigit b && isDigit c && isDigit d then
      let h := (a.toNat - 48) * 10 + (b.toNat - 48)
      let mi := (c.toNat - 48) * 10 + (d.toNat - 48)
      if h < 24 && mi < 60 then some ((h : Int), (mi : Int)) else none
    else none
  | a :: ':' :: c :: d :: [] =>
    if isDigit a && isDigit c && isDigit d then
      let h := a.toNat - 48
      let mi := (c.toNat - 48) * 10 + (d.toNat - 48)
      if h < 24 && mi < 60 then some ((h : Int), (mi : Int)) else none
    else none
  | _ => none

/-- Nanoseconds since local midnight of an instant, for comparing `now` with
the start/end instants built by `inTimeRange` (which share `now`'s date). -/
def todNanos (t : GoTime) : Int :=
  ((t.Hour * 3600 + t.Minute * 60 + t.Sec) * 1000000000) + t.Nanosec

/-- `inTimeRange` (part_013 lines 326-343): a malformed range is always
eligible; an end before the start wraps past midnight; otherwise the window
is start-to-end within the day. -/
def inTimeRange (now : GoTime) (rng : String) : Bool :=
  let parts := splitOnChar '-' rng.toList
  if parts.length ≠ 2 then true
  else
    match parseHM (String.mk (parts.getD 0 [])), parseHM (String.mk (parts.getD 1 [])) with
    | some s, some e =>
      let startNs : Int := (s.1 * 3600 + s.2 * 60) * 1000000000
      let endNs : Int := (e.1 * 3600 + e.2 * 60) * 1000000000
      let nowNs := todNanos now
      if endNs < startNs then decide (startNs < nowNs) || decide (nowNs < endNs)
      else decide (startNs ≤ nowNs) && decide (nowNs ≤ endNs)
    | _, _ => true

/-- Result of `service.UserService.GetNews`: `fatal` is the `log.Fatal` path
(process termination), `err` a returned error, `ok` a digest text. -/
inductive GetNewsRes
  | fatal
  | err
  | ok (msg : String)
  deriving Repr, DecidableEq

/-- Prompt construction shared by the `service` generation methods. -/
def buildPrompt (t : Tariff) (category info : String) : String :=
  let prompt := t.GPT.PromptMain.toList
  let prompt := replaceAll "\x7bтип\x7d".toList info.toList prompt
  let prompt := replaceAll "\x7bкатегория\x7d".toList category.toList prompt
  let prompt := replaceAll "\x7bтон\x7d".toList t.GPT.Style.toList prompt
  String.mk (replaceAll "\x7bобъём\x7d".toList t.GPT.Volume.toList prompt)

/-- `service.UserService.GetNews` (internal/service/user.go lines 59-104):
pick a random category and info type (`pickCat`/`pickInfo` model
`rand.Intn`), look the user's tariff up — `log.Fatal` when it is absent —
then complete the prompt (`ai = none` models a nil OpenAI client, whose
branch returns the prompt itself). -/
def serviceGetNews (tariffs : Tariffs) (ai : Option (String → Option String))
    (pickCat pickInfo : Nat) (u : UserSettings) : GetNewsRes :=
  let category :=
    if u.Topics.isEmpty then ""
    else (topicsKeys u.Topics).getD (pickCat % u.Topics.length) ""
  let info :=
    if u.Topics.isEmpty then ""
    else
      let infos := topicsIdx u.Topics category
      if infos.isEmpty then "" else infos.getD (pickInfo % infos.length) ""
  match tariffsFind tariffs u.Tariff with
  | none => .fatal
  | some t =>
    let prompt := buildPrompt t category info
    let resp := match ai with
      | none => some prompt
      | some f => f prompt
    match resp with
    | none => .err
    | some r =>
      let pre := (if info ≠ "" then ["Тип: " ++ info] else []) ++
                 (if category ≠ "" then ["Категория: " ++ category] else [])
      let pre := String.intercalate "\n" pre
      let pre := if pre ≠ "" then pre ++ "\n\n" else pre
      .ok (pre ++ r)

/-- Outcome of one user's slice of a scheduler tick. -/
structure SchedResult where
  fatal : Bool
  sends : List String
  store : Store
  deriving Repr, DecidableEq

/-- Per-user body of `App.scheduleMessages` (part_013 lines 359-383): resolve
the tariff with the "base" fallback, skip outside the send window or before
the frequency interval has elapsed, otherwise generate via
`service.GetNews`, deliver, and stamp `LastScheduledSent` with the tick
time. -/
def scheduleUserStep (env : Env) (ai : Option (String → Option String))
    (pickCat pickInfo : Nat) (now : GoTime) (u : UserSettings) (st : Store) :
    SchedResult :=
  let tariff := resolveTariff env.Tariffs u.Tariff
  if !inTimeRange now tariff.Schedule.TimeRange then
    { fatal := false, sends := [], store := st }
  else if (now.Unix - u.LastScheduledSent) * 1000000000 + now.Nanosec <
      tariff.Schedule.FrequencyMinutes * 60 * 1000000000 then
    { fatal := false, sends := [], store := st }
  else
    match serviceGetNews env.Tariffs ai pickCat pickInfo u with
    | .fatal => { fatal := true, sends := [], store := st }
    | .err => { fatal := false, sends := [], store := st }
    | .ok _ =>
      let u := { u with LastScheduledSent := now.Unix }
      { fatal := false, sends := ["news"], store := storePut st u.UserID u }

/-! ### `sendLongMessage` (part_013 lines 153-168 / part_011 lines 165-180) -/

/-- `sendLongMessage` over the rune slice of the text: repeatedly send a
chunk of at most 4096 runes; the `send` oracle returns the message id or
`none` for a transport error, which aborts the loop.  On success the list of
chunks sent, in order, is returned. -/
def sendLongMessage (send : List Char → Option Nat) (runes : List Char) :
    Option (List (List Char)) :=
  if h : runes = [] then some []
  else
    let n := min 4096 runes.length
    let part := runes.take n
    match send part with
    | none => none
    | some _ => (sendLongMessage send (runes.drop n)).map (fun rest => part :: rest)
termination_by runes.length
decreasing_by
  simp only [List.length_drop]
  have hlen : 0 < runes.length := List.length_pos.mpr h
  omega

/-! ### The reworked `cmdHandlers` package -/

/-- `cmdHandlers.convStage`; `stageZero` is the Go zero value. -/
inductive cmdStage
  | stageZero
  | StageStartWelcome
  | StageStartChooseCategoryCount
  | StageStartCategory
  | StageStartCustomCategory
  | StageStartInfoTypes
  | StageUpdateTopicsChoice
  | StageUpdateTopicsSelectManyExisting
  | StageUpdateTopicsCategory
  | StageUpdateTopicsCustomCategory
  | StageUpdateTopicsInfoTypes
  | StageAddTopicsCustomCategory
  | StageAddTopicsCategory
  | StageAddTopicsInfoTypes
  | StageAddTopicsAddMore
  | StageDeleteTopicsChoice
  | StageDeleteTopicsSelect
  | StageCustomCategory
  | StageGetNewsCategory
  | stageGetLast24hCategory
  | stageSetTariffUser
  | stageSetTariffChoice
  deriving Repr, DecidableEq

/-- `cmdHandlers.ConversationState`. -/
structure CmdConversationState where
  Cmd : String
  Stage : cmdStage
  PrevStage : cmdStage
  Step : Int
  CurrentCat : String
  OldCat : String
  Topics : Topics
  CategoryLimit : Int
  InfoLimit : Int
  LastMsgID : Int
  AvailableCats : List String
  Settings : Option UserSettings
  AllowCustomCategory : Bool
  SelectedInfos : List String
  SelectedCats : List String
  TargetUser : String
  NewTariff : String
  deriving Repr, DecidableEq

/-- `ConversationState.setStage`: advance and remember the previous stage. -/
def CmdConversationState.setStage (cs : CmdConversationState) (s : cmdStage) :
    CmdConversationState :=
  { cs with PrevStage := cs.Stage, Stage := s }

/-- `cmdHandlers.handleStageUpdateTopicsUpdateChoice` (cmd_update_topics.go
lines 63-91), exactly as written: when no option is selected the source
sends a re-prompt but does not return, and then evaluates `choice[0]`; the
`none` result models the Go index-out-of-range panic this causes.  The
"Обновить несколько" branch likewise lacks a return and falls through into
the "replace all" tail. -/
def handleStageUpdateTopicsUpdateChoice (m : Msg) (cs : CmdConversationState) :
    Option (CmdConversationState × List String) :=
  let choice := parseSelection m.Text ["Обновить все", "Обновить несколько"] 1
  let sends := if choice.isEmpty then ["choose_action"] else []
  let cs := if choice.isEmpty then { cs with LastMsgID := 0 } else cs
  match choice.head? with
  | none => none
  | some c0 =>
    if c0 == "Обновить несколько" then
      let cs := { cs with AvailableCats := topicsKeys cs.Topics }
      let cs := cs.setStage .StageUpdateTopicsSelectManyExisting
      let sends := sends ++ ["prompt_choose_existing_multi"]
      let cs := { cs with LastMsgID := 0 }
      let cs := { cs with Topics := [], Step := 0 }
      let cs := cs.setStage .StageUpdateTopicsCategory
      some (cs, sends ++ ["prompt_choose_category"])
    else
      let cs := { cs with Topics := [], Step := 0 }
      let cs := cs.setStage .StageUpdateTopicsCategory
      some (cs, sends ++ ["prompt_choose_category"])

/-- The Go zero value of `cmdHandlers.ConversationState`. -/
def CmdConversationState.goZero : CmdConversationState :=
  { Cmd := "", Stage := .stageZero, PrevStage := .stageZero, Step := 0,
    CurrentCat := "", OldCat := "", Topics := [], CategoryLimit := 0,
    InfoLimit := 0, LastMsgID := 0, AvailableCats := [], Settings := none,
    AllowCustomCategory := false, SelectedInfos := [], SelectedCats := [],
    TargetUser := "", NewTariff := "" }

/-- `cmdHandlers.handleGetLast24hNewsCommand` (cmd_update_topics.go lines
548-585): the `/get_last_24h_news` entry point.  Requires a paid tariff,
resets the last-24h counter when the calendar day changed (year or
day-of-year differ), refuses with the limit message when the counter has
reached the tariff's daily limit, otherwise opens a
`stageGetLast24hCategory` session carrying the (possibly reset) settings.
The day-reset is applied to the local copy only; nothing is persisted by
this handler. -/
def handleGetLast24hNewsCommand (env : Env) (cal : Int → Int × Int)
    (now : GoTime) (m : Msg) (st : Store) :
    Option CmdConversationState × Store × List String :=
  match storeFind st m.ChatID with
  | none => (none, st, ["start_first"])
  | some settings =>
    if settings.Tariff ≠ "plus" ∧ settings.Tariff ≠ "premium" ∧
        settings.Tariff ≠ "ultimate" then
      (none, st, ["plus_only"])
    else
      let tariff := resolveTariff env.Tariffs settings.Tariff
      let last := cal settings.LastGetLast24h
      let settings :=
        if now.YearDay ≠ last.2 ∨ now.Year ≠ last.1 then
          { settings with GetLast24hCount := 0 }
        else settings
      if settings.GetLast24hCount ≥ tariff.Limits.GetLast24hNewPerDay then
        (none, st, ["limit_today"])
      else if settings.Topics.isEmpty then (none, st, ["no_topics"])
      else
        (some { CmdConversationState.goZero with
                Cmd := "/get_last_24h_news",
                Stage := .stageGetLast24hCategory,
                Settings := some settings,
                AvailableCats := topicsKeys settings.Topics },
         st, ["prompt_choose_last24_cat"])

/-- Result of one `cmdHandlers` flow call: the handled flag the Go function
returns, the surviving session, the store after any `repo.Save`, outbound
sends (by message key) and generator calls made. -/
structure CmdFlowResult where
  handled : Bool
  conv : Option CmdConversationState
  store : Store
  sends : List String
  genCalls : List String
  deriving Repr, DecidableEq

/-- `cmdHandlers.continueLast24hFlow` (cmd_update_topics.go lines 587-645):
the last-24h category step.  On a valid category choice it resets the
last-24h counter when the calendar day changed, enforces the tariff's daily
limit (removing the session on refusal), and on successful generation
persists the incremented counter and the request time before removing the
session; a failed generation removes the session without persisting. -/
def continueLast24hFlow (env : Env) (gen : GenOracle) (cal : Int → Int × Int)
    (now : GoTime) (m : Msg) (cs : CmdConversationState) (st : Store) :
    CmdFlowResult :=
  if cs.Stage ≠ .stageGetLast24hCategory then
    { handled := false, conv := some cs, store := st, sends := [], genCalls := [] }
  else
    let cats := parseSelection m.Text cs.AvailableCats 1
    if cats.isEmpty then
      { handled := true, conv := some { cs with LastMsgID := 0 }, store := st,
        sends := ["choose_category_number"], genCalls := [] }
    else
      let settings := cs.Settings.getD UserSettings.goZero
      let tariff := resolveTariff env.Tariffs settings.Tariff
      let last := cal settings.LastGetLast24h
      let settings :=
        if now.YearDay ≠ last.2 ∨ now.Year ≠ last.1 then
          { settings with GetLast24hCount := 0 }
        else settings
      if settings.GetLast24hCount ≥ tariff.Limits.GetLast24hNewPerDay then
        { handled := true, conv := none, store := st, sends := ["limit_today"],
          genCalls := [] }
      else
        match gen.getLast24hNewsForCategory settings (cats.headD "") with
        | none =>
          { handled := true, conv := none, store := st,
            sends := ["wait_search"], genCalls := ["GetLast24hNewsForCategory"] }
        | some _ =>
          let settings := { settings with
                            GetLast24hCount := settings.GetLast24hCount + 1,
                            LastGetLast24h := now.Unix }
          { handled := true, conv := none, store := storePut st m.ChatID settings,
            sends := ["wait_search", "news"],
            genCalls := ["GetLast24hNewsForCategory"] }

/-! ### The current `app.continueConversation` wrapper (cancel / back)

The newest `package app` generation (the code cited for the cancel
behaviour, cmd_start.go lines 854-888 and the identical cmdHandlers wrapper)
first intercepts the cancel and back tokens and only then dispatches to the
per-flow handlers.  The dispatch target is abstracted as a parameter
`flows`, which makes the cancel theorem hold for every flow and stage. -/

/-- The `package app` conversation state of that generation: part_013's
fields plus `PrevStage`. -/
structure AppConversationState where
  Stage : convStage
  PrevStage : convStage
  Step : Int
  CurrentCat : String
  OldCat : String
  Topics : Topics
  UpdateTopics : Bool
  DeleteTopics : Bool
  CategoryLimit : Int
  InfoLimit : Int
  LastMsgID : Int
  AvailableCats : List String
  Settings : Option UserSettings
  AllowCustomCategory : Bool
  SelectedInfos : List String
  SelectedCats : List String
  TargetUser : String
  NewTariff : String
  deriving Repr, DecidableEq

/-- Step result over `AppConversationState`. -/
structure AppStepResult where
  conv : Option AppConversationState
  store : Store
  sends : List String
  genCalls : List String
  deriving Repr, DecidableEq

/-- `app.continueConversation` (cmd_start.go lines 854-888): a cancel token
removes the session, deletes the two visible messages, and sends the
"cancelled" notice — before any flow handler and without touching the
store.  A back token with `PrevStage == 0` re-enters the function once with
an empty text (on which both guards are false), i.e. it reaches the flow
dispatch with the message text cleared; that single recursion is inlined
here. -/
def appContinueConversation
    (flows : Msg → AppConversationState → Store → AppStepResult)
    (m : Msg) (c : AppConversationState) (st : Store) : AppStepResult :=
  if eqFold m.Text "Отмена" then
    { conv := none, store := st, sends := ["cancelled"], genCalls := [] }
  else if eqFold m.Text "Назад" && c.PrevStage == convStage.stageNone then
    flows { ChatID := m.ChatID, Username := m.Username, MessageID := 0, Text := "" } c st
  else flows m c st

/-! ### The file-backed settings repository (part_009)

`FileUserSettingsRepository` copies records with `copy := *s`, a struct
copy.  A Go map value is a reference, so the copied struct shares the
`Topics` map object with the stored record.  To make that observable the
map objects live in an explicit heap and a stored record holds a reference
(`TopicsRef`) into it. -/

/-- `model.UserSettings` as laid out in memory: the `Topics` field is a map
reference. -/
structure GoUserSettings where
  UserID : Int
  UserName : String
  Active : Bool
  TopicsRef : Nat
  Frequency : Int
  Tariff : String
  LastScheduledSent : Int
  LastGetNewsNow : Int
  GetNewsNowCount : Int
  LastGetLast24h : Int
  GetLast24hCount : Int
  deriving Repr, DecidableEq

/-- The heap of live map objects. -/
abbrev MapHeap := List (Nat × Topics)

/-- Dereference a map object (a dangling reference reads as empty). -/
def heapRead (h : MapHeap) (r : Nat) : Topics := (alistFind h r).getD []

/-- `m[k] = v` performed on the map object behind reference `r`. -/
def heapWrite (h : MapHeap) (r : Nat) (k : String) (v : List String) : MapHeap :=
  h.map fun p => if p.1 == r then (r, topicsPut p.2 k v) else p

/-- `FileUserSettingsRepository.data` (the `path`/`mu` fields play no role in
the copying semantics under verification). -/
structure FileRepo where
  data : List (Int × GoUserSettings)
  deriving Repr, DecidableEq

/-- `FileUserSettingsRepository.Get` (part_009 lines 66-74): look the record
up and return `copy := *s` — a struct copy, hence sharing `TopicsRef` —
or the `os.ErrNotExist` condition (`none`). -/
def repoGet (rp : FileRepo) (id : Int) : Option GoUserSettings :=
  alistFind rp.data id

/-- `FileUserSettingsRepository.Save` (part_009 lines 77-83): store
`copy := *settings` under its user id — again a struct copy sharing the
argument's map reference. -/
def repoSave (rp : FileRepo) (s : GoUserSettings) : FileRepo :=
  { data := alistPut rp.data s.UserID s }

/-- `FileUserSettingsRepository.List` (part_009 lines 94-103): struct copies
of every stored record. -/
def repoList (rp : FileRepo) : List GoUserSettings := rp.data.map (·.2)

/-- The topics map of a record as seen through the heap. -/
def viewTopics (h : MapHeap) (s : GoUserSettings) : Topics := heapRead h s.TopicsRef

/-! ### Specification-side notions for the configuration-flow claims -/

/-- Left-to-right deduplication: keep the first occurrence of each value.
This is the specification's "info-types chosen for it with duplicates
removed". -/
def specDedup : List String → List String
  | [] => []
  | x :: xs => x :: ((specDedup xs).filter fun y => !(y == x))

/-- One valid selection round of a configuration flow: the texts the user
sends and what the engine parses from them. -/
structure SelInput where
  catText : String
  cat : String
  infoText : String
  infos : List String

/-- Validity of one selection round with respect to the option catalogs and
the per-category info-type limit `L`: the category text is not a control
token and parses to exactly the chosen catalog category (not the
custom-category sentinel), and the info text parses to the chosen non-empty
info-type list, which respects the limit. -/
def SelValid (env : Env) (allow : Bool) (L : Int) (s : SelInput) : Prop :=
  eqFold s.catText "Готово" = false ∧
  parseSelection s.catText (addCustomOption env.categoryOptions allow) 1 = [s.cat] ∧
  (allow = true → s.cat ≠ "😇Своя категория") ∧
  eqFold s.infoText "Готово" = false ∧
  parseSelection s.infoText env.infoOptions L = s.infos ∧
  s.infos ≠ [] ∧ (s.infos.length : Int) ≤ L

/-- The inbound texts one selection round contributes: the category choice,
the info-type choice, and — when the accumulated selection is still below
the limit, which leaves the engine waiting — the "done" token. -/
def selScript (L : Int) (s : SelInput) : List String :=
  [s.catText, s.infoText] ++
    (if ((addInfos [] s.infos L).length : Int) < L then ["Готово"] else [])

/-- The whole flow's inbound texts: the selection rounds, closed by "done"
when fewer categories than the working limit were configured. -/
def flowScript (n L : Int) (sels : List SelInput) : List String :=
  (sels.map (selScript L)).flatten ++
    (if (sels.length : Int) < n then ["Готово"] else [])

/-- The session state at the first `stageCategory` prompt of a configuration
flow with working category limit `n` and info-type limit `L` (reached from
the welcome/count stages of first-time setup with `upd = false`, or from
the "replace all" branch of an update flow with `upd = true`). -/
def flowStart (n L : Int) (upd allow : Bool) : conversationState :=
  { conversationState.goZero with
    Stage := .stageCategory, CategoryLimit := n, InfoLimit := L,
    UpdateTopics := upd, AllowCustomCategory := allow }

/-- The topics map the engine accumulates over the rounds (its own merge
operation folded over the selections). -/
def expectedTopics (L : Int) (sels : List SelInput) : Topics :=
  sels.foldl
    (fun t s => topicsPut t s.cat (mergeInfos (topicsIdx t s.cat) (addInfos [] s.infos L)))
    []

/-- All info-type values chosen for a category across the rounds, in order. -/
def infosFor (sels : List SelInput) (cat : String) : List String :=
  ((sels.filter fun s => s.cat == cat).map (·.infos)).flatten

/-! ### Concrete instances used by counterexamples and witnesses -/

/-- A stored record whose topics map lives at heap reference 7. -/
def c10stored : GoUserSettings :=
  { UserID := 1, UserName := "alice", Active := true, TopicsRef := 7,
    Frequency := 0, Tariff := "base", LastScheduledSent := 0,
    LastGetNewsNow := 0, GetNewsNowCount := 0, LastGetLast24h := 0,
    GetLast24hCount := 0 }

/-- A repository holding exactly that record. -/
def c10repo : FileRepo := ⟨[(1, c10stored)]⟩

/-- The heap with the (initially empty) map object behind reference 7. -/
def c10heap : MapHeap := [(7, [])]

/-- A minimal concrete tariff used by witnesses. -/
def demoTariff : Tariff :=
  { Schedule := { FrequencyMinutes := 180, TimeRange := "08:00-23:00" },
    Limits := { GetNewsNowPerDay := 3, GetLast24hNewPerDay := 1,
                CategoryLimit := 2, InfoTypeLimit := 2 },
    GPT := { Model := "m", PromptMain := "p", PromptLast24h := "q",
             MaxTokens := 1, Style := "s", Volume := "v" },
    AllowCustomCategory := false }

/-! ## Lemmas -/

section AlistLemmas

variable {κ α : Type} [BEq κ] [LawfulBEq κ]

theorem alistFind_put_self (l : List (κ × α)) (k : κ) (v : α) :
    alistFind (alistPut l k v) k = some v := by
  induction l with
  | nil => simp [alistPut, alistFind]
  | cons p l ih =>
    by_cases hp : p.1 == k
    · simp [alistPut, alistFind, List.find?_cons, hp]
    · have hpf : (p.1 == k) = false := by simpa using hp
      rcases hsome : (l.find? fun q => q.1 == k).isSome with _ | _
      · have : alistPut (p :: l) k v = p :: (l ++ [(k, v)]) := by
          simp [alistPut, List.find?_cons, hpf, hsome]
        rw [this]
        have hl : alistPut l k v = l ++ [(k, v)] := by simp [alistPut, hsome]
        have := ih
        rw [hl] at this
        simpa [alistFind, List.find?_cons, hpf] using this
      · have : alistPut (p :: l) k v =
            p :: (l.map fun q => if q.1 == k then (k, v) else q) := by
          simp [alistPut, List.find?_cons, hpf, hsome]
        rw [this]
        have hl : alistPut l k v = l.map fun q => if q.1 == k then (k, v) else q := by
          simp [alistPut, hsome]
        have := ih
        rw [hl] at this
        simpa [alistFind, List.find?_cons, hpf] using this

theorem beq_false_symm {a b : κ} (h : (a == b) = false) : (b == a) = false := by
  rcases hba : b == a with _ | _
  · rfl
  · have hba' : b = a := by simpa using hba
    rw [hba'] at h
    simp at h

theorem find_map_put_ne (k k' : κ) (v : α) (hk : (k == k') = false) :
    ∀ m : List (κ × α),
      ((m.map fun q => if q.1 == k then (k, v) else q).find? fun q => q.1 == k').map (·.2)
        = (m.find? fun q => q.1 == k').map (·.2)
  | [] => by simp
  | q :: m => by
    by_cases hq : q.1 == k
    · have hqk : q.1 = k := by simpa using hq
      have hq' : (q.1 == k') = false := by rw [hqk]; exact hk
      simp only [List.map_cons, hq, if_true, List.find?_cons, hk, hq']
      exact find_map_put_ne k k' v hk m
    · have hqf : (q.1 == k) = false := by simpa using hq
      rcases hq' : q.1 == k' with _ | _
      · simp only [List.map_cons, hqf, Bool.false_eq_true, if_false,
          List.find?_cons, hq']
        exact find_map_put_ne k k' v hk m
      · simp [List.find?_cons, hqf, hq']

theorem alistFind_put_ne (l : List (κ × α)) (k k' : κ) (v : α)
    (h : (k' == k) = false) :
    alistFind (alistPut l k v) k' = alistFind l k' := by
  have hk : (k == k') = false := beq_false_symm h
  rcases hsome : (l.find? fun q => q.1 == k).isSome with _ | _
  · have hput : alistPut l k v = l ++ [(k, v)] := by simp [alistPut, hsome]
    rw [hput]
    unfold alistFind
    rw [List.find?_append]
    rcases hfind : l.find? fun q => q.1 == k' with _ | p
    · simp [List.find?_cons, hk]
    · simp [hfind]
  · have hput : alistPut l k v = l.map fun q => if q.1 == k then (k, v) else q := by
      simp [alistPut, hsome]
    rw [hput]
    exact find_map_put_ne k k' v hk l

theorem alistFind_erase_self (l : List (κ × α)) (k : κ) :
    alistFind (alistErase l k) k = none := by
  induction l with
  | nil => simp [alistErase, alistFind]
  | cons p l ih =>
    by_cases hp : p.1 == k
    · simpa [alistErase, List.filter_cons, hp] using ih
    · have hpf : (p.1 == k) = false := by simpa using hp
      simpa [alistErase, alistFind, List.filter_cons, List.find?_cons, hpf] using ih

theorem alistFind_erase_ne (l : List (κ × α)) (k k' : κ) (h : (k' == k) = false) :
    alistFind (alistErase l k) k' = alistFind l k' := by
  induction l with
  | nil => simp [alistErase, alistFind]
  | cons p l ih =>
    by_cases hp : p.1 == k
    · have hpk : p.1 = k := by simpa using hp
      have hp' : (p.1 == k') = false := by
        rcases hq' : p.1 == k' with _ | _
        · rfl
        · have : p.1 = k' := by simpa using hq'
          rw [this] at hpk
          rw [hpk] at h
          simp at h
      simpa [alistErase, alistFind, List.filter_cons, hp, List.find?_cons, hp'] using ih
    · have hpf : (p.1 == k) = false := by simpa using hp
      rcases hq' : p.1 == k' with _ | _
      · simpa [alistErase, alistFind, List.filter_cons, hpf, List.find?_cons, hq'] using ih
      · simp [alistErase, alistFind, List.filter_cons, hpf, List.find?_cons, hq']

end AlistLemmas

theorem topicsFind_put_self (t : Topics) (k : String) (v : List String) :
    topicsFind (topicsPut t k v) k = some v := alistFind_put_self t k v

theorem topicsFind_put_ne (t : Topics) (k k' : String) (v : List String)
    (h : k' ≠ k) : topicsFind (topicsPut t k v) k' = topicsFind t k' :=
  alistFind_put_ne t k k' v (by simpa using h)

theorem topicsFind_erase_self (t : Topics) (k : String) :
    topicsFind (topicsErase t k) k = none := alistFind_erase_self t k

theorem topicsFind_erase_ne (t : Topics) (k k' : String) (h : k' ≠ k) :
    topicsFind (topicsErase t k) k' = topicsFind t k' :=
  alistFind_erase_ne t k k' (by simpa using h)

theorem storeFind_put_self (st : Store) (id : Int) (s : UserSettings) :
    storeFind (storePut st id s) id = some s := alistFind_put_self st id s

/-! ### `sendLongMessage` unfolding -/

theorem sendLongMessage_nil (send : List Char → Option Nat) :
    sendLongMessage send [] = some [] := by
  rw [sendLongMessage]
  simp

theorem sendLongMessage_cons (send : List Char → Option Nat) (runes : List Char)
    (h : runes ≠ []) :
    sendLongMessage send runes =
      match send (runes.take (min 4096 runes.length)) with
      | none => none
      | some _ =>
        (sendLongMessage send (runes.drop (min 4096 runes.length))).map
          (fun rest => runes.take (min 4096 runes.length) :: rest) := by
  conv_lhs => rw [sendLongMessage]
  simp [h]

/-! ## Claims -/

/-- **C3**: in every in-progress multi-turn session, at every stage and for
every flow dispatch, an inbound message whose text is the cancel token
("Отмена", case-insensitive) removes the session and sends the cancellation
notice without performing any write to the preference store — the store
after the step is exactly the store before it. -/
theorem C3_cancel_token_aborts
    (flows : Msg → AppConversationState → Store → AppStepResult)
    (m : Msg) (c : AppConversationState) (st : Store)
    (hcancel : eqFold m.Text "Отмена" = true) :
    appContinueConversation flows m c st =
      { conv := none, store := st, sends := ["cancelled"], genCalls := [] } := by
  simp [appContinueConversation, hcancel]

theorem C3_cancel_token_aborts_witness :
    appContinueConversation
      (fun _ c st => { conv := some c, store := st, sends := [], genCalls := [] })
      ⟨1, "u", 0, "отмена"⟩
      { Stage := .stageInfoTypes, PrevStage := .stageCategory, Step := 1,
        CurrentCat := "Tech", OldCat := "", Topics := [("Tech", ["News"])],
        UpdateTopics := true, DeleteTopics := false, CategoryLimit := 2,
        InfoLimit := 2, LastMsgID := 9, AvailableCats := [], Settings := none,
        AllowCustomCategory := false, SelectedInfos := [], SelectedCats := [],
        TargetUser := "", NewTariff := "" }
      [(1, UserSettings.goZero)] =
      { conv := none, store := [(1, UserSettings.goZero)],
        sends := ["cancelled"], genCalls := [] } :=
  C3_cancel_token_aborts _ _ _ _ (by decide)

/-- **C7**: the code, evaluated at the claim's failing input.  An active user
whose stored tariff name ("gold") is not a key of the configured tariff
table is resolved to "base" only for the schedule checks; the tick then
calls `service.GetNews`, whose own tariff lookup hits the `log.Fatal` branch
and terminates the process instead of completing generation and delivery. -/
theorem C7_unknown_tariff_is_fatal :
    scheduleUserStep ⟨[("base", demoTariff)], [], []⟩ none 0 0
      ⟨2024, 100, 10, 0, 0, 0, 1000000⟩
      { UserSettings.goZero with
        UserID := 5, Tariff := "gold", Active := true,
        Topics := [("Tech", ["News"])] }
      [] = { fatal := true, sends := [], store := [] } := by decide

/-- **C8**: the code, evaluated at the claim's failing input.  In the update
flow's choose-update-mode stage, an inbound message ("abc") that selects
neither numbered option makes `handleStageUpdateTopicsUpdateChoice` send the
re-prompt and then evaluate `choice[0]` on the empty selection — an
index-out-of-range panic (`none`), not a re-prompt that leaves the session
waiting in the same stage. -/
theorem C8_invalid_choice_panics :
    handleStageUpdateTopicsUpdateChoice ⟨1, "u", 0, "abc"⟩
      { Cmd := "/update_topics", Stage := .StageUpdateTopicsChoice,
        PrevStage := .stageZero, Step := 0, CurrentCat := "", OldCat := "",
        Topics := [("Tech", ["News"])], CategoryLimit := 2, InfoLimit := 2,
        LastMsgID := 5, AvailableCats := [], Settings := none,
        AllowCustomCategory := false, SelectedInfos := [], SelectedCats := [],
        TargetUser := "", NewTariff := "" } = none := by decide

/-- **C9** (amended): when every transport send succeeds, the long-message
sender splits the text into consecutive chunks of at most 4096 runes and
sends them in order, so the concatenation of the sent chunks is the original
text; a non-empty text of at most 4096 runes is sent as a single message
(an empty text produces no send at all). -/
theorem C9_sendLongMessage_chunks (send : List Char → Option Nat)
    (hok : ∀ p, (send p).isSome = true) (text : List Char) :
    ∃ chunks, sendLongMessage send text = some chunks ∧
      chunks.flatten = text ∧
      (∀ p ∈ chunks, p.length ≤ 4096) ∧
      (text ≠ [] → text.length ≤ 4096 → chunks = [text]) := by
  suffices h : ∀ (n : Nat) (t : List Char), t.length ≤ n →
      ∃ chunks, sendLongMessage send t = some chunks ∧
        chunks.flatten = t ∧
        (∀ p ∈ chunks, p.length ≤ 4096) ∧
        (t ≠ [] → t.length ≤ 4096 → chunks = [t]) from
    h text.length text le_rfl
  intro n
  induction n with
  | zero =>
    intro t ht
    have ht0 : t = [] := List.eq_nil_of_length_eq_zero (Nat.le_zero.mp ht)
    subst ht0
    exact ⟨[], sendLongMessage_nil send, rfl, by simp, by simp⟩
  | succ n ih =>
    intro t ht
    by_cases he : t = []
    · subst he
      exact ⟨[], sendLongMessage_nil send, rfl, by simp, by simp⟩
    · have hlen : 0 < t.length := List.length_pos.mpr he
      have hm1 : 1 ≤ min 4096 t.length := le_min (by norm_num) hlen
      obtain ⟨id, hid⟩ := Option.isSome_iff_exists.mp (hok (t.take (min 4096 t.length)))
      obtain ⟨chunks', hrun, hflat, hbound, _⟩ :=
        ih (t.drop (min 4096 t.length)) (by simp only [List.length_drop]; omega)
      refine ⟨t.take (min 4096 t.length) :: chunks', ?_, ?_, ?_, ?_⟩
      · rw [sendLongMessage_cons send t he, hid, hrun]
        rfl
      · simp [hflat]
      · intro p hp
        rcases List.mem_cons.mp hp with hp | hp
        · subst hp
          simp only [List.length_take]
          omega
        · exact hbound p hp
      · intro _ hle
        have hmm : min 4096 t.length = t.length := min_eq_right hle
        have hdrop : t.drop (min 4096 t.length) = [] := by
          rw [hmm]
          simp
        rw [hdrop, sendLongMessage_nil] at hrun
        have hch : chunks' = [] := by
          injection hrun with h'
          exact h'.symm
        rw [hmm, hch, List.take_length]

theorem C9_sendLongMessage_chunks_witness :
    ∃ chunks, sendLongMessage (fun _ => some 0) ['a', 'b'] = some chunks ∧
      chunks.flatten = ['a', 'b'] ∧
      (∀ p ∈ chunks, p.length ≤ 4096) ∧
      (['a', 'b'] ≠ ([] : List Char) → ('a' :: ['b']).length ≤ 4096 →
        chunks = [['a', 'b']]) :=
  C9_sendLongMessage_chunks (fun _ => some 0) (fun _ => rfl) ['a', 'b']

/-- **C9** counterexample to the claim as stated: for the empty text the
sender performs no send at all, so "a text of at most 4096 runes is sent as
a single message" fails at the empty text — the chunk list is empty, not a
single message carrying the text. -/
theorem C9_empty_text_not_single :
    sendLongMessage (fun _ => some 0) [] = some [] ∧
      ([] : List (List Char)) ≠ [([] : List Char)] :=
  ⟨sendLongMessage_nil _, by decide⟩

theorem heapRead_heapWrite_self (r : Nat) (k : String) (v : List String) :
    ∀ (h : MapHeap) (t : Topics), alistFind h r = some t →
      heapRead (heapWrite h r k v) r = topicsPut t k v
  | [], t, hfind => by simp [alistFind] at hfind
  | p :: h, t, hfind => by
    by_cases hp : p.1 == r
    · have hpr : p.2 = t := by
        simpa [alistFind, List.find?_cons, hp] using hfind
      subst hpr
      simp only [heapWrite, List.map_cons, hp, if_true]
      simp [heapRead, alistFind, List.find?_cons]
    · have hpf : (p.1 == r) = false := by simpa using hp
      have hfind' : alistFind h r = some t := by
        simpa [alistFind, List.find?_cons, hpf] using hfind
      have hrec := heapRead_heapWrite_self r k v h t hfind'
      simp only [heapWrite, List.map_cons, hpf, Bool.false_eq_true, if_false]
      simp only [heapWrite] at hrec
      simpa [heapRead, alistFind, List.find?_cons, hpf] using hrec

/-- **C10** counterexample to the claim as stated: `Get` copies the struct
but not the map behind its `Topics` field, so mutating the topics map of the
value obtained from `Get` changes the stored record — with no `Save` in
between, the stored record's topics view goes from empty to
`[("Tech", ["News"])]`. -/
theorem C10_shared_topics_map_cex :
    repoGet c10repo 1 = some c10stored ∧
    viewTopics c10heap c10stored = [] ∧
    viewTopics (heapWrite c10heap c10stored.TopicsRef "Tech" ["News"]) c10stored =
      [("Tech", ["News"])] ∧
    c10repo.data = [(1, c10stored)] := by decide

/-- **C10** (amended): `Get` and `List` return a shallow copy of the stored
record and `Save` stores a shallow copy of its argument — the struct value
is copied (so `Get` yields exactly the stored record, including its shared
`Topics` map reference), mutating that map's contents through the copy is
visible in the store, `Get` for an absent user reports the
`os.ErrNotExist` condition, and `Save` rewrites only the argument's user
entry. -/
theorem C10_shallow_copy_semantics :
    (∀ (rp : FileRepo) (id : Int) (g : GoUserSettings),
        repoGet rp id = some g → alistFind rp.data id = some g) ∧
    (∀ (h : MapHeap) (r : Nat) (t : Topics) (k : String) (v : List String),
        alistFind h r = some t →
        heapRead (heapWrite h r k v) r = topicsPut t k v) ∧
    (∀ (rp : FileRepo) (id : Int),
        alistFind rp.data id = none → repoGet rp id = none) ∧
    (∀ (rp : FileRepo) (s : GoUserSettings),
        (repoSave rp s).data = alistPut rp.data s.UserID s) := by
  exact ⟨fun rp id g h => h, fun h r t k v => heapRead_heapWrite_self r k v h t,
    fun rp id h => h, fun rp s => rfl⟩

theorem C10_shallow_copy_semantics_witness :
    heapRead (heapWrite c10heap 7 "Tech" ["News"]) 7 = topicsPut [] "Tech" ["News"] :=
  C10_shallow_copy_semantics.2.1 c10heap 7 [] "Tech" ["News"] (by decide)

theorem inTimeRange_0800_2300 (now : GoTime) :
    inTimeRange now "08:00-23:00" =
      (decide ((28800000000000 : Int) ≤ todNanos now) &&
       decide (todNanos now ≤ (82800000000000 : Int))) := by
  have h0 : parseHM (String.mk ['0', '8', ':', '0', '0']) = some (8, 0) := by decide
  have h1 : parseHM (String.mk ['2', '3', ':', '0', '0']) = some (23, 0) := by decide
  simp only [inTimeRange,
    show splitOnChar '-' "08:00-23:00".toList =
      [['0', '8', ':', '0', '0'], ['2', '3', ':', '0', '0']] from by decide,
    List.getD, List.length_cons, List.length_nil, List.getElem?_cons_zero,
    List.getElem?_cons_succ, Option.getD_some]
  norm_num [h0, h1]

/-- **C6**: the scheduler's eligibility check.  A window string that does not
split into two parseable "HH:MM" times is always eligible; when the end time
is earlier than the start the window wraps past midnight; otherwise
eligibility is start-to-end within the day.  Concretely, a tick at 07:59
with window "08:00-23:00" is skipped (no send, no stamp), while a tick at
08:01 whose user has no prior send and whose generation succeeds dispatches
and stamps `LastScheduledSent` with the tick time. -/
theorem C6_send_window_semantics :
    (∀ (now : GoTime) (rng : String),
        ((splitOnChar '-' rng.toList).length ≠ 2 ∨
         parseHM (String.mk ((splitOnChar '-' rng.toList).getD 0 [])) = none ∨
         parseHM (String.mk ((splitOnChar '-' rng.toList).getD 1 [])) = none) →
        inTimeRange now rng = true) ∧
    (∀ (now : GoTime) (rng : String) (s e : Int × Int),
        (splitOnChar '-' rng.toList).length = 2 →
        parseHM (String.mk ((splitOnChar '-' rng.toList).getD 0 [])) = some s →
        parseHM (String.mk ((splitOnChar '-' rng.toList).getD 1 [])) = some e →
        (inTimeRange now rng = true ↔
          (if (e.1 * 3600 + e.2 * 60) * 1000000000 < (s.1 * 3600 + s.2 * 60) * 1000000000 then
            ((s.1 * 3600 + s.2 * 60) * 1000000000 < todNanos now ∨
              todNanos now < (e.1 * 3600 + e.2 * 60) * 1000000000)
          else
            ((s.1 * 3600 + s.2 * 60) * 1000000000 ≤ todNanos now ∧
              todNanos now ≤ (e.1 * 3600 + e.2 * 60) * 1000000000)))) ∧
    (∀ (env : Env) (ai : Option (String → Option String)) (pc pi : Nat)
        (u : UserSettings) (st : Store) (now : GoTime),
        (resolveTariff env.Tariffs u.Tariff).Schedule.TimeRange = "08:00-23:00" →
        now.Hour = 7 → now.Minute = 59 →
        0 ≤ now.Sec → now.Sec < 60 → 0 ≤ now.Nanosec → now.Nanosec < 1000000000 →
        scheduleUserStep env ai pc pi now u st =
          { fatal := false, sends := [], store := st }) ∧
    (∀ (env : Env) (ai : Option (String → Option String)) (pc pi : Nat)
        (u : UserSettings) (st : Store) (now : GoTime) (msg : String),
        (resolveTariff env.Tariffs u.Tariff).Schedule.TimeRange = "08:00-23:00" →
        now.Hour = 8 → now.Minute = 1 →
        0 ≤ now.Sec → now.Sec < 60 → 0 ≤ now.Nanosec → now.Nanosec < 1000000000 →
        u.LastScheduledSent = 0 →
        (resolveTariff env.Tariffs u.Tariff).Schedule.FrequencyMinutes * 60 * 1000000000 ≤
          now.Unix * 1000000000 + now.Nanosec →
        serviceGetNews env.Tariffs ai pc pi u = .ok msg →
        scheduleUserStep env ai pc pi now u st =
          { fatal := false, sends := ["news"],
            store := storePut st u.UserID { u with LastScheduledSent := now.Unix } }) := by
  constructor
  · intro now rng hbad
    simp only [inTimeRange]
    rcases hbad with h2 | hp0 | hp1
    · rw [if_pos h2]
    · by_cases hl : (splitOnChar '-' rng.toList).length ≠ 2
      · rw [if_pos hl]
      · rw [if_neg hl, hp0]
    · by_cases hl : (splitOnChar '-' rng.toList).length ≠ 2
      · rw [if_pos hl]
      · rw [if_neg hl, hp1]
        rcases hq : parseHM (String.mk ((splitOnChar '-' rng.toList).getD 0 [])) with _ | s
        · rfl
        · rfl
  constructor
  · intro now rng s e h2 hs he
    have h2' : ¬ ((splitOnChar '-' rng.toList).length ≠ 2) := fun hn => hn h2
    simp only [inTimeRange, hs, he]
    rw [if_neg h2']
    by_cases hlt : (e.1 * 3600 + e.2 * 60) * 1000000000 <
        (s.1 * 3600 + s.2 * 60) * 1000000000
    · rw [if_pos hlt, if_pos hlt]
      simp [decide_eq_true_eq]
    · rw [if_neg hlt, if_neg hlt]
      simp [decide_eq_true_eq]
  constructor
  · intro env ai pc pi u st now hrng h7 h59 hs0 hs60 hn0 hn9
    have htod : todNanos now < 28800000000000 := by
      unfold todNanos
      rw [h7, h59]
      omega
    have hin : inTimeRange now (resolveTariff env.Tariffs u.Tariff).Schedule.TimeRange
        = false := by
      rw [hrng, inTimeRange_0800_2300, decide_eq_false (by omega), Bool.false_and]
    simp only [scheduleUserStep, hin, Bool.not_false, if_true]
  · intro env ai pc pi u st now msg hrng h8 h1 hs0 hs60 hn0 hn9 hlast hfreq hok
    have htod1 : (28800000000000 : Int) ≤ todNanos now := by
      unfold todNanos
      rw [h8, h1]
      omega
    have htod2 : todNanos now ≤ (82800000000000 : Int) := by
      unfold todNanos
      rw [h8, h1]
      omega
    have hin : inTimeRange now (resolveTariff env.Tariffs u.Tariff).Schedule.TimeRange
        = true := by
      rw [hrng, inTimeRange_0800_2300, decide_eq_true htod1, decide_eq_true htod2]
      rfl
    have hfr : ¬ ((now.Unix - u.LastScheduledSent) * 1000000000 + now.Nanosec <
        (resolveTariff env.Tariffs u.Tariff).Schedule.FrequencyMinutes * 60 * 1000000000) := by
      rw [hlast]
      omega
    simp only [scheduleUserStep, hin, Bool.not_true, Bool.false_eq_true, if_false,
      hfr, hok]

theorem C6_send_window_semantics_witness :
    scheduleUserStep ⟨[("base", demoTariff)], [], []⟩ none 0 0
      ⟨2024, 100, 7, 59, 0, 0, 1700000000⟩
      { UserSettings.goZero with UserID := 3, Tariff := "base", Active := true }
      [] = { fatal := false, sends := [], store := [] } :=
  C6_send_window_semantics.2.2.1 ⟨[("base", demoTariff)], [], []⟩ none 0 0
    { UserSettings.goZero with UserID := 3, Tariff := "base", Active := true }
    [] ⟨2024, 100, 7, 59, 0, 0, 1700000000⟩
    (by decide) rfl rfl (by decide) (by decide) (by decide) (by decide)

/-- Whatever branch `saveTopics` takes, the session is removed and the record
persisted for the chat carries exactly the working topics map. -/
theorem saveTopics_result (gen : GenOracle) (m : Msg) (c : conversationState)
    (st : Store) :
    (saveTopics gen m c st).conv = none ∧
    ∃ u, storeFind (saveTopics gen m c st).store m.ChatID = some u ∧
      u.Topics = c.Topics := by
  unfold saveTopics
  by_cases hupd : c.UpdateTopics
  · simp only [hupd, if_true]
    rcases hf : storeFind st m.ChatID with _ | s
    · simp only [hf]
      exact ⟨by trivial, _, storeFind_put_self st m.ChatID _, rfl⟩
    · simp only [hf]
      exact ⟨by trivial, _, storeFind_put_self st m.ChatID _, rfl⟩
  · simp only [hupd, Bool.false_eq_true, if_false]
    rcases hg : gen.getNews { UserSettings.goZero with
        UserID := m.ChatID, UserName := m.Username, Topics := c.Topics,
        Tariff := "base", LastScheduledSent := 0, LastGetNewsNow := 0,
        GetNewsNowCount := 0, Active := true } with _ | msg
    · simp only [hg]
      exact ⟨by trivial, _, storeFind_put_self st m.ChatID _, rfl⟩
    · simp only [hg]
      exact ⟨by trivial, _, storeFind_put_self st m.ChatID _, rfl⟩

/-- The commit block of `stageInfoTypes` with a non-empty replaced category:
the old key is erased before the merge, so neither the surviving session's
working topics nor a persisted record can contain it (when it differs from
the newly chosen category). -/
theorem commitInfoTypes_old_gone (gen : GenOracle) (m : Msg)
    (c : conversationState) (st : Store)
    (hold : c.OldCat ≠ "") (hnecur : c.OldCat ≠ c.CurrentCat) :
    (∀ c', (commitInfoTypes gen m c st).conv = some c' →
        topicsFind c'.Topics c.OldCat = none) ∧
    ((commitInfoTypes gen m c st).conv = none →
      ∀ u, storeFind (commitInfoTypes gen m c st).store m.ChatID = some u →
        topicsFind u.Topics c.OldCat = none) := by
  have holdb : (c.OldCat == "") = false := by simpa using hold
  have hgone : topicsFind
      (topicsPut (topicsErase c.Topics c.OldCat) c.CurrentCat
        (mergeInfos (topicsIdx (topicsErase c.Topics c.OldCat) c.CurrentCat)
          c.SelectedInfos)) c.OldCat = none := by
    rw [topicsFind_put_ne _ _ _ _ hnecur, topicsFind_erase_self]
  unfold commitInfoTypes
  simp only [holdb, Bool.false_eq_true, if_false]
  by_cases hfin : c.Step + 1 ≥ c.CategoryLimit
  · simp only [if_pos hfin]
    obtain ⟨hconv, u, hu, hut⟩ := saveTopics_result gen m _ st
    refine ⟨?_, ?_⟩
    · intro c' hc'
      rw [hconv] at hc'
      exact absurd hc' (by simp)
    · intro _ u' hu'
      rw [hu'] at hu
      injection hu with h
      subst h
      rw [hut]
      exact hgone
  · simp only [if_neg hfin]
    by_cases hq : 0 < c.SelectedCats.length ∧ c.Step + 1 < (c.SelectedCats.length : Int)
    · simp only [if_pos hq]
      refine ⟨?_, ?_⟩
      · intro c' hc'
        injection hc' with h
        subst h
        exact hgone
      · intro hc'
        exact Option.noConfusion hc'
    · simp only [if_neg hq]
      refine ⟨?_, ?_⟩
      · intro c' hc'
        injection hc' with h
        subst h
        exact hgone
      · intro hc'
        exact Option.noConfusion hc'

/-- **C2**: whenever an existing category is being replaced (a non-empty
`OldCat` differing from the newly chosen category) and the inbound message
completes the info-type stage, the old key is deleted from the working
topics map before the new category's info-types are merged in: the updated
session's topics — and the persisted topics, when this step completes the
flow — never contain the replaced old key. -/
theorem C2_replaced_category_never_kept
    (env : Env) (gen : GenOracle) (cal : Int → Int × Int) (now : GoTime)
    (m : Msg) (c : conversationState) (st : Store)
    (hstage : c.Stage = .stageInfoTypes)
    (hold : c.OldCat ≠ "") (hnecur : c.OldCat ≠ c.CurrentCat)
    (hcommit :
      (eqFold m.Text "Готово" = true ∧
        (c.SelectedInfos.isEmpty && (topicsIdx c.Topics c.CurrentCat).isEmpty) = false) ∨
      (eqFold m.Text "Готово" = false ∧
        parseSelection m.Text env.infoOptions
          (c.InfoLimit - (c.SelectedInfos.length : Int)) ≠ [] ∧
        ¬ (((addInfos c.SelectedInfos
              (parseSelection m.Text env.infoOptions
                (c.InfoLimit - (c.SelectedInfos.length : Int)))
              c.InfoLimit).length : Int) < c.InfoLimit))) :
    (∀ c', (continueConversation env gen cal now m c st).conv = some c' →
        topicsFind c'.Topics c.OldCat = none) ∧
    ((continueConversation env gen cal now m c st).conv = none →
      ∀ u, storeFind (continueConversation env gen cal now m c st).store m.ChatID = some u →
        topicsFind u.Topics c.OldCat = none) := by
  rcases hcommit with ⟨hg, hempty⟩ | ⟨hg, hne, hfull⟩
  · have hred : continueConversation env gen cal now m c st =
        commitInfoTypes gen m c st := by
      simp only [continueConversation, hstage, stepInfoTypes, hg, if_true, hempty,
        Bool.false_eq_true, if_false]
    rw [hred]
    exact commitInfoTypes_old_gone gen m c st hold hnecur
  · have hneb : (parseSelection m.Text env.infoOptions
        (c.InfoLimit - (c.SelectedInfos.length : Int))).isEmpty = false := by
      rcases hp : parseSelection m.Text env.infoOptions
          (c.InfoLimit - (c.SelectedInfos.length : Int)) with _ | ⟨x, xs⟩
      · exact absurd hp hne
      · rfl
    have hred : continueConversation env gen cal now m c st =
        commitInfoTypes gen m
          { c with
            SelectedInfos := addInfos c.SelectedInfos (parseSelection m.Text
              env.infoOptions (c.InfoLimit - (c.SelectedInfos.length : Int))) c.InfoLimit }
          st := by
      simp only [continueConversation, hstage, stepInfoTypes, hg,
        Bool.false_eq_true, if_false, hneb, if_neg hfull]
    rw [hred]
    exact commitInfoTypes_old_gone gen m _ st hold hnecur

theorem C2_replaced_category_never_kept_witness :
    (∀ c', (continueConversation ⟨[("base", demoTariff)], ["Tech", "Science"], ["News", "Facts"]⟩
        ⟨fun _ => none, fun _ _ => some "d", fun _ _ => some "d"⟩
        (fun _ => (2024, 100)) ⟨2024, 100, 12, 0, 0, 0, 0⟩
        ⟨7, "u", 0, "Готово"⟩
        { conversationState.goZero with
          Stage := .stageInfoTypes, Step := 0, CurrentCat := "Science",
          OldCat := "Tech", Topics := [("Tech", ["News"])], UpdateTopics := true,
          CategoryLimit := 1, InfoLimit := 2, SelectedInfos := ["Facts"],
          SelectedCats := ["Tech"] }
        [(7, { UserSettings.goZero with
               UserID := 7, Tariff := "base", Active := true,
               Topics := [("Tech", ["News"])] })]).conv = some c' →
      topicsFind c'.Topics "Tech" = none) ∧
    ((continueConversation ⟨[("base", demoTariff)], ["Tech", "Science"], ["News", "Facts"]⟩
        ⟨fun _ => none, fun _ _ => some "d", fun _ _ => some "d"⟩
        (fun _ => (2024, 100)) ⟨2024, 100, 12, 0, 0, 0, 0⟩
        ⟨7, "u", 0, "Готово"⟩
        { conversationState.goZero with
          Stage := .stageInfoTypes, Step := 0, CurrentCat := "Science",
          OldCat := "Tech", Topics := [("Tech", ["News"])], UpdateTopics := true,
          CategoryLimit := 1, InfoLimit := 2, SelectedInfos := ["Facts"],
          SelectedCats := ["Tech"] }
        [(7, { UserSettings.goZero with
               UserID := 7, Tariff := "base", Active := true,
               Topics := [("Tech", ["News"])] })]).conv = none →
      ∀ u, storeFind (continueConversation ⟨[("base", demoTariff)], ["Tech", "Science"], ["News", "Facts"]⟩
        ⟨fun _ => none, fun _ _ => some "d", fun _ _ => some "d"⟩
        (fun _ => (2024, 100)) ⟨2024, 100, 12, 0, 0, 0, 0⟩
        ⟨7, "u", 0, "Готово"⟩
        { conversationState.goZero with
          Stage := .stageInfoTypes, Step := 0, CurrentCat := "Science",
          OldCat := "Tech", Topics := [("Tech", ["News"])], UpdateTopics := true,
          CategoryLimit := 1, InfoLimit := 2, SelectedInfos := ["Facts"],
          SelectedCats := ["Tech"] }
        [(7, { UserSettings.goZero with
               UserID := 7, Tariff := "base", Active := true,
               Topics := [("Tech", ["News"])] })]).store 7 = some u →
      topicsFind u.Topics "Tech" = none) :=
  C2_replaced_category_never_kept _ _ _ _ _ _ _ rfl (by decide) (by decide)
    (Or.inl ⟨by decide, by decide⟩)

/-- **C4**: an on-demand digest request made when the same-calendar-day
counter has already reached the tariff's daily limit is answered with the
quota-exceeded message only: the session is discarded (flow case) or not
created (command case), the store is untouched — no counter increment is
persisted — and the content generator is never called. -/
theorem C4_quota_exceeded_terminal
    (env : Env) (gen : GenOracle) (cal : Int → Int × Int) (now : GoTime)
    (m : Msg) (c : conversationState) (st : Store) (cat : String) :
    (c.Stage = .stageGetNewsCategory →
      parseSelection m.Text c.AvailableCats 1 = [cat] →
      (cal (c.Settings.getD UserSettings.goZero).LastGetNewsNow).1 = now.Year →
      (cal (c.Settings.getD UserSettings.goZero).LastGetNewsNow).2 = now.YearDay →
      (resolveTariff env.Tariffs
          (c.Settings.getD UserSettings.goZero).Tariff).Limits.GetNewsNowPerDay ≤
        (c.Settings.getD UserSettings.goZero).GetNewsNowCount →
      continueConversation env gen cal now m c st =
        { conv := none, store := st, sends := ["limit_today"], genCalls := [] }) ∧
    (∀ s : UserSettings, storeFind st m.ChatID = some s →
      (cal s.LastGetNewsNow).1 = now.Year →
      (cal s.LastGetNewsNow).2 = now.YearDay →
      (resolveTariff env.Tariffs s.Tariff).Limits.GetNewsNowPerDay ≤ s.GetNewsNowCount →
      handleGetNewsNowCommand env cal now m st = (none, st, ["limit_today"])) := by
  constructor
  · intro hstage hsel hyear hday hlim
    have hne : ¬ (now.YearDay ≠ (cal (c.Settings.getD UserSettings.goZero).LastGetNewsNow).2 ∨
        now.Year ≠ (cal (c.Settings.getD UserSettings.goZero).LastGetNewsNow).1) := by
      push_neg
      exact ⟨hday.symm, hyear.symm⟩
    simp only [continueConversation, hstage, stepGetNewsCategory, hsel,
      List.isEmpty_cons, Bool.false_eq_true, if_false, if_neg hne, if_pos hlim]
  · intro s hfound hyear hday hlim
    have hne : ¬ (now.YearDay ≠ (cal s.LastGetNewsNow).2 ∨
        now.Year ≠ (cal s.LastGetNewsNow).1) := by
      push_neg
      exact ⟨hday.symm, hyear.symm⟩
    simp only [handleGetNewsNowCommand, hfound, if_neg hne, if_pos hlim]

theorem C4_quota_exceeded_terminal_witness :
    continueConversation ⟨[("base", demoTariff)], ["Tech"], ["News"]⟩
      ⟨fun _ => none, fun _ _ => some "d", fun _ _ => some "d"⟩
      (fun _ => (2024, 100)) ⟨2024, 100, 12, 0, 0, 0, 1000000⟩
      ⟨7, "u", 0, "1"⟩
      { conversationState.goZero with
        Stage := .stageGetNewsCategory, AvailableCats := ["Tech"],
        Settings := some { UserSettings.goZero with
          UserID := 7, Tariff := "base", Active := true,
          Topics := [("Tech", ["News"])], GetNewsNowCount := 3 } }
      [] =
      { conv := none, store := [], sends := ["limit_today"], genCalls := [] } :=
  (C4_quota_exceeded_terminal _ _ _ _ _ _ _ "Tech").1 rfl (by decide)
    (by decide) (by decide) (by decide)

/-- **C5**: in every daily-quota check — the on-demand (GetNewsNow) entry
handler and flow step, and the last-24h (GetLast24h) entry handler and flow
step — the counter that is compared with the limit and then incremented is
the stored counter when the stored last-request timestamp falls on the same
calendar day as "now" (same year and day-of-year), and zero when it falls
on a different day: the entry handlers carry the session's settings with
the reset (or carried) counter, and the flow handlers persist counter 1
after a cross-day request and counter `n + 1` after a same-day request. -/
theorem C5_daily_counter_reset
    (env : Env) (gen : GenOracle) (cal : Int → Int × Int) (now : GoTime)
    (m : Msg) (c : conversationState) (st : Store) (cat : String)
    (s : UserSettings) (cs : CmdConversationState) (msg0 : String) :
    (storeFind st m.ChatID = some s →
      (now.YearDay ≠ (cal s.LastGetNewsNow).2 ∨ now.Year ≠ (cal s.LastGetNewsNow).1) →
      0 < (resolveTariff env.Tariffs s.Tariff).Limits.GetNewsNowPerDay →
      s.Topics.isEmpty = false →
      handleGetNewsNowCommand env cal now m st =
        (some { conversationState.goZero with
                Stage := .stageGetNewsCategory,
                Settings := some { s with GetNewsNowCount := 0 },
                AvailableCats := topicsKeys s.Topics },
         st, ["prompt_choose_news_cat"])) ∧
    (storeFind st m.ChatID = some s →
      (cal s.LastGetNewsNow).1 = now.Year → (cal s.LastGetNewsNow).2 = now.YearDay →
      s.GetNewsNowCount < (resolveTariff env.Tariffs s.Tariff).Limits.GetNewsNowPerDay →
      s.Topics.isEmpty = false →
      handleGetNewsNowCommand env cal now m st =
        (some { conversationState.goZero with
                Stage := .stageGetNewsCategory,
                Settings := some s,
                AvailableCats := topicsKeys s.Topics },
         st, ["prompt_choose_news_cat"])) ∧
    (c.Stage = .stageGetNewsCategory → c.Settings = some s →
      parseSelection m.Text c.AvailableCats 1 = [cat] →
      (now.YearDay ≠ (cal s.LastGetNewsNow).2 ∨ now.Year ≠ (cal s.LastGetNewsNow).1) →
      0 < (resolveTariff env.Tariffs s.Tariff).Limits.GetNewsNowPerDay →
      (continueConversation env gen cal now m c st).store =
        storePut st m.ChatID
          { s with GetNewsNowCount := 1, LastGetNewsNow := now.Unix }) ∧
    (c.Stage = .stageGetNewsCategory → c.Settings = some s →
      parseSelection m.Text c.AvailableCats 1 = [cat] →
      (cal s.LastGetNewsNow).1 = now.Year → (cal s.LastGetNewsNow).2 = now.YearDay →
      s.GetNewsNowCount < (resolveTariff env.Tariffs s.Tariff).Limits.GetNewsNowPerDay →
      (continueConversation env gen cal now m c st).store =
        storePut st m.ChatID
          { s with GetNewsNowCount := s.GetNewsNowCount + 1,
                   LastGetNewsNow := now.Unix }) ∧
    (storeFind st m.ChatID = some s →
      (s.Tariff = "plus" ∨ s.Tariff = "premium" ∨ s.Tariff = "ultimate") →
      (now.YearDay ≠ (cal s.LastGetLast24h).2 ∨ now.Year ≠ (cal s.LastGetLast24h).1) →
      0 < (resolveTariff env.Tariffs s.Tariff).Limits.GetLast24hNewPerDay →
      s.Topics.isEmpty = false →
      handleGetLast24hNewsCommand env cal now m st =
        (some { CmdConversationState.goZero with
                Cmd := "/get_last_24h_news",
                Stage := .stageGetLast24hCategory,
                Settings := some { s with GetLast24hCount := 0 },
                AvailableCats := topicsKeys s.Topics },
         st, ["prompt_choose_last24_cat"])) ∧
    (storeFind st m.ChatID = some s →
      (s.Tariff = "plus" ∨ s.Tariff = "premium" ∨ s.Tariff = "ultimate") →
      (cal s.LastGetLast24h).1 = now.Year → (cal s.LastGetLast24h).2 = now.YearDay →
      s.GetLast24hCount < (resolveTariff env.Tariffs s.Tariff).Limits.GetLast24hNewPerDay →
      s.Topics.isEmpty = false →
      handleGetLast24hNewsCommand env cal now m st =
        (some { CmdConversationState.goZero with
                Cmd := "/get_last_24h_news",
                Stage := .stageGetLast24hCategory,
                Settings := some s,
                AvailableCats := topicsKeys s.Topics },
         st, ["prompt_choose_last24_cat"])) ∧
    (cs.Stage = .stageGetLast24hCategory → cs.Settings = some s →
      parseSelection m.Text cs.AvailableCats 1 = [cat] →
      (now.YearDay ≠ (cal s.LastGetLast24h).2 ∨ now.Year ≠ (cal s.LastGetLast24h).1) →
      0 < (resolveTariff env.Tariffs s.Tariff).Limits.GetLast24hNewPerDay →
      gen.getLast24hNewsForCategory { s with GetLast24hCount := 0 } cat = some msg0 →
      (continueLast24hFlow env gen cal now m cs st).store =
        storePut st m.ChatID
          { s with GetLast24hCount := 1, LastGetLast24h := now.Unix }) ∧
    (cs.Stage = .stageGetLast24hCategory → cs.Settings = some s →
      parseSelection m.Text cs.AvailableCats 1 = [cat] →
      (cal s.LastGetLast24h).1 = now.Year → (cal s.LastGetLast24h).2 = now.YearDay →
      s.GetLast24hCount < (resolveTariff env.Tariffs s.Tariff).Limits.GetLast24hNewPerDay →
      gen.getLast24hNewsForCategory s cat = some msg0 →
      (continueLast24hFlow env gen cal now m cs st).store =
        storePut st m.ChatID
          { s with GetLast24hCount := s.GetLast24hCount + 1,
                   LastGetLast24h := now.Unix }) := by
  refine ⟨?_, ?_, ?_, ?_, ?_, ?_, ?_, ?_⟩
  · intro hfound hdiff hpos htop
    have hnl : ¬ ((resolveTariff env.Tariffs s.Tariff).Limits.GetNewsNowPerDay ≤ 0) := by
      omega
    simp only [handleGetNewsNowCommand, hfound, if_pos hdiff, htop,
      Bool.false_eq_true, if_false, if_neg hnl]
  · intro hfound hyear hday hlt htop
    have hne : ¬ (now.YearDay ≠ (cal s.LastGetNewsNow).2 ∨
        now.Year ≠ (cal s.LastGetNewsNow).1) := by
      push_neg
      exact ⟨hday.symm, hyear.symm⟩
    have hnl : ¬ ((resolveTariff env.Tariffs s.Tariff).Limits.GetNewsNowPerDay ≤
        s.GetNewsNowCount) := by omega
    simp only [handleGetNewsNowCommand, hfound, if_neg hne, if_neg hnl, htop,
      Bool.false_eq_true, if_false]
  · intro hstage hset hsel hdiff hpos
    have hnl : ¬ ((resolveTariff env.Tariffs s.Tariff).Limits.GetNewsNowPerDay ≤ 0) := by
      omega
    simp only [continueConversation, hstage, stepGetNewsCategory, hsel,
      List.isEmpty_cons, Bool.false_eq_true, if_false, hset, Option.getD_some,
      if_pos hdiff, if_neg hnl]
    rcases gen.getNewsForCategory
        { s with GetNewsNowCount := 0 + 1, LastGetNewsNow := now.Unix }
        ([cat].headD "") with _ | msg
    · simp only []
      norm_num
    · simp only []
      norm_num
  · intro hstage hset hsel hyear hday hlt
    have hne : ¬ (now.YearDay ≠ (cal s.LastGetNewsNow).2 ∨
        now.Year ≠ (cal s.LastGetNewsNow).1) := by
      push_neg
      exact ⟨hday.symm, hyear.symm⟩
    have hnl : ¬ ((resolveTariff env.Tariffs s.Tariff).Limits.GetNewsNowPerDay ≤
        s.GetNewsNowCount) := by omega
    simp only [continueConversation, hstage, stepGetNewsCategory, hsel,
      List.isEmpty_cons, Bool.false_eq_true, if_false, hset, Option.getD_some,
      if_neg hne, if_neg hnl]
    rcases gen.getNewsForCategory
        { s with GetNewsNowCount := s.GetNewsNowCount + 1, LastGetNewsNow := now.Unix }
        ([cat].headD "") with _ | msg
    · simp only []
    · simp only []
  · intro hfound hpaid hdiff hpos htop
    have hpg : ¬ (s.Tariff ≠ "plus" ∧ s.Tariff ≠ "premium" ∧
        s.Tariff ≠ "ultimate") := by
      rcases hpaid with h | h | h <;> simp [h]
    have hnl : ¬ ((resolveTariff env.Tariffs s.Tariff).Limits.GetLast24hNewPerDay ≤ 0) := by
      omega
    simp only [handleGetLast24hNewsCommand, hfound, if_neg hpg, if_pos hdiff,
      htop, Bool.false_eq_true, if_false, if_neg hnl]
  · intro hfound hpaid hyear hday hlt htop
    have hpg : ¬ (s.Tariff ≠ "plus" ∧ s.Tariff ≠ "premium" ∧
        s.Tariff ≠ "ultimate") := by
      rcases hpaid with h | h | h <;> simp [h]
    have hne : ¬ (now.YearDay ≠ (cal s.LastGetLast24h).2 ∨
        now.Year ≠ (cal s.LastGetLast24h).1) := by
      push_neg
      exact ⟨hday.symm, hyear.symm⟩
    have hnl : ¬ ((resolveTariff env.Tariffs s.Tariff).Limits.GetLast24hNewPerDay ≤
        s.GetLast24hCount) := by omega
    simp only [handleGetLast24hNewsCommand, hfound, if_neg hpg, if_neg hne,
      if_neg hnl, htop, Bool.false_eq_true, if_false]
  · intro hstage hset hsel hdiff hpos hgen
    have hnst : ¬ (cs.Stage ≠ cmdStage.stageGetLast24hCategory) := by
      rw [hstage]
      exact fun h => h rfl
    have hnl : ¬ ((resolveTariff env.Tariffs s.Tariff).Limits.GetLast24hNewPerDay ≤ 0) := by
      omega
    simp only [continueLast24hFlow, if_neg hnst, hsel, List.isEmpty_cons,
      Bool.false_eq_true, if_false, hset, Option.getD_some, if_pos hdiff,
      if_neg hnl, List.headD_cons, hgen]
    norm_num
  · intro hstage hset hsel hyear hday hlt hgen
    have hnst : ¬ (cs.Stage ≠ cmdStage.stageGetLast24hCategory) := by
      rw [hstage]
      exact fun h => h rfl
    have hne : ¬ (now.YearDay ≠ (cal s.LastGetLast24h).2 ∨
        now.Year ≠ (cal s.LastGetLast24h).1) := by
      push_neg
      exact ⟨hday.symm, hyear.symm⟩
    have hnl : ¬ ((resolveTariff env.Tariffs s.Tariff).Limits.GetLast24hNewPerDay ≤
        s.GetLast24hCount) := by omega
    simp only [continueLast24hFlow, if_neg hnst, hsel, List.isEmpty_cons,
      Bool.false_eq_true, if_false, hset, Option.getD_some, if_neg hne,
      if_neg hnl, List.headD_cons, hgen]

theorem C5_daily_counter_reset_witness :
    ((continueConversation ⟨[("base", demoTariff)], ["Tech"], ["News"]⟩
      ⟨fun _ => none, fun _ _ => some "d", fun _ _ => some "d"⟩
      (fun _ => (2024, 99)) ⟨2024, 100, 12, 0, 0, 0, 1000000⟩
      ⟨7, "u", 0, "1"⟩
      { conversationState.goZero with
        Stage := .stageGetNewsCategory, AvailableCats := ["Tech"],
        Settings := some { UserSettings.goZero with
          UserID := 7, Tariff := "base", Active := true,
          Topics := [("Tech", ["News"])], GetNewsNowCount := 3 } }
      []).store =
    storePut [] 7
      { { UserSettings.goZero with
          UserID := 7, Tariff := "base", Active := true,
          Topics := [("Tech", ["News"])], GetNewsNowCount := 3 } with
        GetNewsNowCount := 1, LastGetNewsNow := 1000000 }) ∧
    ((continueLast24hFlow ⟨[("plus", demoTariff)], ["Tech"], ["News"]⟩
      ⟨fun _ => none, fun _ _ => some "d", fun _ _ => some "d"⟩
      (fun _ => (2024, 99)) ⟨2024, 100, 12, 0, 0, 0, 1000000⟩
      ⟨7, "u", 0, "1"⟩
      { CmdConversationState.goZero with
        Stage := .stageGetLast24hCategory, AvailableCats := ["Tech"],
        Settings := some { UserSettings.goZero with
          UserID := 7, Tariff := "plus", Active := true,
          Topics := [("Tech", ["News"])], GetLast24hCount := 5 } }
      []).store =
    storePut [] 7
      { { UserSettings.goZero with
          UserID := 7, Tariff := "plus", Active := true,
          Topics := [("Tech", ["News"])], GetLast24hCount := 5 } with
        GetLast24hCount := 1, LastGetLast24h := 1000000 }) :=
  ⟨(C5_daily_counter_reset _ _ _ _ _ _ _ "Tech" _
      CmdConversationState.goZero "d").2.2.1 rfl rfl (by decide) (by decide)
      (by decide),
   (C5_daily_counter_reset _ _ _ _ _ conversationState.goZero _ "Tech" _ _
      "d").2.2.2.2.2.2.1 rfl rfl (by decide) (by decide) (by decide) rfl⟩

/-! ### Pure properties of the info-type accumulation and merge loops -/

theorem addInfos_cons (e : List String) (x : String) (xs : List String) (L : Int) :
    addInfos e (x :: xs) L =
      addInfos (if !e.contains x && (e.length : Int) < L then e ++ [x] else e) xs L :=
  rfl

theorem mergeInfos_cons (e : List String) (x : String) (xs : List String) :
    mergeInfos e (x :: xs) = mergeInfos (if e.contains x then e else e ++ [x]) xs :=
  rfl

theorem addInfos_eq_mergeInfos (infos : List String) :
    forall (e : List String) (L : Int), (e.length : Int) + (infos.length : Int) <= L ->
    addInfos e infos L = mergeInfos e infos := by
  induction infos with
  | nil => intro e L _; rfl
  | cons x xs ih =>
    intro e L h
    rw [addInfos_cons, mergeInfos_cons]
    by_cases hc : e.contains x = true
    · rw [if_neg (by simp only [hc, Bool.not_true, Bool.false_and]; exact Bool.false_ne_true), if_pos hc]
      refine ih e L ?_
      simp only [List.length_cons] at h
      push_cast at h ⊢
      omega
    · have hc2 : e.contains x = false := by
        cases hcc : e.contains x
        · rfl
        · exact absurd hcc hc
      have hlt : (e.length : Int) < L := by
        simp only [List.length_cons] at h
        push_cast at h
        omega
      rw [if_pos (by simp only [hc2, Bool.not_false, Bool.true_and, decide_eq_true_eq]; exact hlt), if_neg hc]
      refine ih (e ++ [x]) L ?_
      simp only [List.length_append, List.length_cons, List.length_singleton,
        List.length_nil] at h ⊢
      push_cast at h ⊢
      omega

theorem mem_mergeInfos (y : String) (l : List String) :
    forall e : List String, y ∈ mergeInfos e l ↔ y ∈ e ∨ y ∈ l := by
  induction l with
  | nil => intro e; simp [mergeInfos]
  | cons x xs ih =>
    intro e
    rw [mergeInfos_cons, ih]
    by_cases hc : e.contains x = true
    · have hx : x ∈ e := by simpa using hc
      rw [if_pos hc]
      simp only [List.mem_cons]
      constructor
      · rintro (h | h)
        · exact Or.inl h
        · exact Or.inr (Or.inr h)
      · rintro (h | rfl | h)
        · exact Or.inl h
        · exact Or.inl hx
        · exact Or.inr h
    · rw [if_neg hc]
      simp only [List.mem_append, List.mem_singleton, List.mem_cons]
      tauto

theorem nodup_mergeInfos (l : List String) :
    forall e : List String, e.Nodup -> (mergeInfos e l).Nodup := by
  induction l with
  | nil => intro e he; exact he
  | cons x xs ih =>
    intro e he
    rw [mergeInfos_cons]
    by_cases hc : e.contains x = true
    · rw [if_pos hc]
      exact ih e he
    · rw [if_neg hc]
      refine ih (e ++ [x]) ?_
      rw [List.nodup_append]
      refine ⟨he, List.nodup_singleton x, ?_⟩
      intro a ha hmx
      rw [List.mem_singleton] at hmx
      subst hmx
      exact hc (by simpa using ha)

theorem mem_addInfos_of_mem (y : String) (l : List String) :
    forall (e : List String) (L : Int), y ∈ e -> y ∈ addInfos e l L := by
  induction l with
  | nil => intro e L h; exact h
  | cons x xs ih =>
    intro e L h
    rw [addInfos_cons]
    by_cases hcond : (!e.contains x && decide ((e.length : Int) < L)) = true
    · rw [if_pos hcond]
      exact ih (e ++ [x]) L (List.mem_append_left _ h)
    · rw [if_neg hcond]
      exact ih e L h

theorem addInfos_nil_ne_nil (x : String) (xs : List String) (L : Int)
    (hL : 1 ≤ L) : addInfos [] (x :: xs) L ≠ [] := by
  intro hnil
  have hx : x ∈ addInfos ([] : List String) (x :: xs) L := by
    rw [addInfos_cons]
    rw [if_pos (by simp; omega)]
    exact mem_addInfos_of_mem x xs ([] ++ [x]) L (by simp)
  rw [hnil] at hx
  exact absurd hx (List.not_mem_nil x)

theorem mem_addInfos_nil (i : String) (infos : List String) (L : Int)
    (hlen : (infos.length : Int) ≤ L) :
    i ∈ addInfos [] infos L ↔ i ∈ infos := by
  rw [addInfos_eq_mergeInfos infos [] L (by simpa using hlen)]
  rw [mem_mergeInfos]
  simp

theorem topicsIdx_nodup (acc : Topics) (cat : String)
    (hnd : forall v, topicsFind acc cat = some v -> v.Nodup) :
    (topicsIdx acc cat).Nodup := by
  unfold topicsIdx
  rcases hw : topicsFind acc cat with _ | w
  · simp
  · simpa using hnd w hw

theorem mem_topicsIdx (acc : Topics) (cat i : String) :
    i ∈ topicsIdx acc cat ↔ ∃ w, topicsFind acc cat = some w ∧ i ∈ w := by
  unfold topicsIdx
  rcases hw : topicsFind acc cat with _ | w
  · simp
  · simp

/-- Invariant of the per-round merge fold: keys are the seeds plus the
selected categories, every stored value is duplicate-free, and each value
holds exactly the seed entry's members plus every info type chosen for that
category in some round. -/
theorem expectedFold_props (L : Int) (sels : List SelInput) :
    forall acc : Topics,
      (forall s, s ∈ sels -> (s.infos.length : Int) ≤ L) ->
      (forall cat v, topicsFind acc cat = some v -> v.Nodup) ->
      forall cat,
        ((topicsFind (sels.foldl (fun t s => topicsPut t s.cat
            (mergeInfos (topicsIdx t s.cat) (addInfos [] s.infos L))) acc) cat).isSome = true ↔
          ((topicsFind acc cat).isSome = true ∨ cat ∈ sels.map (·.cat))) ∧
        (forall v, topicsFind (sels.foldl (fun t s => topicsPut t s.cat
            (mergeInfos (topicsIdx t s.cat) (addInfos [] s.infos L))) acc) cat = some v ->
          v.Nodup ∧ forall i, (i ∈ v ↔
            ((∃ w, topicsFind acc cat = some w ∧ i ∈ w) ∨
             ∃ s, s ∈ sels ∧ s.cat = cat ∧ i ∈ s.infos))) := by
  induction sels with
  | nil =>
    intro acc _ hnd cat
    simp only [List.foldl_nil, List.map_nil]
    refine ⟨⟨fun h => Or.inl h, ?_⟩, ?_⟩
    · rintro (h | h)
      · exact h
      · exact absurd h (List.not_mem_nil cat)
    · intro v hv
      refine ⟨hnd cat v hv, ?_⟩
      intro i
      rw [hv]
      constructor
      · intro hi
        exact Or.inl ⟨v, rfl, hi⟩
      · rintro (⟨w, hw, hiw⟩ | ⟨t, ht, _⟩)
        · injection hw with hw
          subst hw
          exact hiw
        · exact absurd ht (List.not_mem_nil t)
  | cons s rest ih =>
    intro acc hval hnd cat
    simp only [List.foldl_cons]
    have hnd1 : forall cat' v, topicsFind (topicsPut acc s.cat
        (mergeInfos (topicsIdx acc s.cat) (addInfos [] s.infos L))) cat' = some v ->
        v.Nodup := by
      intro cat' v hv
      by_cases hcc : cat' = s.cat
      · subst hcc
        rw [topicsFind_put_self] at hv
        injection hv with hv
        subst hv
        exact nodup_mergeInfos _ _ (topicsIdx_nodup acc s.cat (hnd s.cat))
      · rw [topicsFind_put_ne acc s.cat cat' _ hcc] at hv
        exact hnd cat' v hv
    have hvr : forall t, t ∈ rest -> (t.infos.length : Int) ≤ L := by
      intro t ht
      exact hval t (List.mem_cons_of_mem s ht)
    obtain ⟨ih1, ih2⟩ := ih (topicsPut acc s.cat
      (mergeInfos (topicsIdx acc s.cat) (addInfos [] s.infos L))) hvr hnd1 cat
    constructor
    · rw [ih1]
      by_cases hcc : cat = s.cat
      · subst hcc
        rw [topicsFind_put_self]
        simp
      · rw [topicsFind_put_ne acc s.cat cat _ hcc]
        simp only [List.map_cons, List.mem_cons]
        constructor
        · rintro (h | h)
          · exact Or.inl h
          · exact Or.inr (Or.inr h)
        · rintro (h | h | h)
          · exact Or.inl h
          · exact absurd h hcc
          · exact Or.inr h
    · intro v hv
      obtain ⟨hvnd, hmem⟩ := ih2 v hv
      refine ⟨hvnd, ?_⟩
      intro i
      rw [hmem i]
      by_cases hcc : cat = s.cat
      · subst hcc
        have hded : forall j : String, j ∈ addInfos [] s.infos L ↔ j ∈ s.infos := by
          intro j
          exact mem_addInfos_nil j s.infos L (hval s (List.mem_cons_self s rest))
        constructor
        · rintro (⟨w, hw, hiw⟩ | ⟨t, ht, htc, hti⟩)
          · rw [topicsFind_put_self] at hw
            injection hw with hw
            subst hw
            rcases (mem_mergeInfos i _ _).mp hiw with hold | hnew
            · rcases (mem_topicsIdx acc s.cat i).mp hold with ⟨w, hw, hiw⟩
              exact Or.inl ⟨w, hw, hiw⟩
            · exact Or.inr ⟨s, List.mem_cons_self s rest, rfl, (hded i).mp hnew⟩
          · exact Or.inr ⟨t, List.mem_cons_of_mem s ht, htc, hti⟩
        · have hput : topicsFind (topicsPut acc s.cat
              (mergeInfos (topicsIdx acc s.cat) (addInfos [] s.infos L))) s.cat =
              some (mergeInfos (topicsIdx acc s.cat) (addInfos [] s.infos L)) :=
            topicsFind_put_self acc s.cat _
          rintro (⟨w, hw, hiw⟩ | ⟨t, ht, htc, hti⟩)
          · refine Or.inl ⟨_, hput, ?_⟩
            exact (mem_mergeInfos i _ _).mpr
              (Or.inl ((mem_topicsIdx acc s.cat i).mpr ⟨w, hw, hiw⟩))
          · rcases List.mem_cons.mp ht with rfl | ht'
            · refine Or.inl ⟨_, hput, ?_⟩
              exact (mem_mergeInfos i _ _).mpr (Or.inr ((hded i).mpr hti))
            · exact Or.inr ⟨t, ht', htc, hti⟩
      · rw [topicsFind_put_ne acc s.cat cat _ hcc]
        constructor
        · rintro (h | ⟨t, ht, htc, hti⟩)
          · exact Or.inl h
          · exact Or.inr ⟨t, List.mem_cons_of_mem s ht, htc, hti⟩
        · rintro (h | ⟨t, ht, htc, hti⟩)
          · exact Or.inl h
          · rcases List.mem_cons.mp ht with rfl | ht'
            · exact absurd htc.symm hcc
            · exact Or.inr ⟨t, ht', htc, hti⟩

/-! ### Step-level reductions of the configuration flow -/

theorem runScript_keep (env : Env) (gen : GenOracle) (cal : Int -> Int × Int)
    (now : GoTime) (chat : Int) (uname : String) (t : String) (ts : List String)
    (c c' : conversationState) (st : Store) (sends : List String)
    (h : continueConversation env gen cal now ⟨chat, uname, 0, t⟩ c st =
      keep c' st sends) :
    (runScript env gen cal now chat uname (t :: ts) c st).conv =
      (runScript env gen cal now chat uname ts c' st).conv ∧
    (runScript env gen cal now chat uname (t :: ts) c st).store =
      (runScript env gen cal now chat uname ts c' st).store := by
  simp only [runScript, h, keep]
  exact ⟨trivial, trivial⟩

theorem runScript_done (env : Env) (gen : GenOracle) (cal : Int -> Int × Int)
    (now : GoTime) (chat : Int) (uname : String) (t : String) (ts : List String)
    (c : conversationState) (st : Store) (R : StepResult)
    (h : continueConversation env gen cal now ⟨chat, uname, 0, t⟩ c st = R)
    (hconv : R.conv = none) :
    (runScript env gen cal now chat uname (t :: ts) c st).conv = none ∧
    (runScript env gen cal now chat uname (t :: ts) c st).store = R.store := by
  simp only [runScript, h, hconv]
  exact ⟨trivial, trivial⟩

theorem step_category_choose (env : Env) (gen : GenOracle) (cal : Int -> Int × Int)
    (now : GoTime) (m : Msg) (c : conversationState) (st : Store) (cat : String)
    (hstage : c.Stage = .stageCategory)
    (hng : eqFold m.Text "Готово" = false)
    (hsel : parseSelection m.Text
      (addCustomOption env.categoryOptions c.AllowCustomCategory) 1 = [cat])
    (hcust : (c.AllowCustomCategory && (cat == "😇Своя категория")) = false) :
    continueConversation env gen cal now m c st =
      keep { c with CurrentCat := cat, SelectedInfos := [],
                    Stage := .stageInfoTypes, LastMsgID := 0 }
        st ["prompt_choose_info"] := by
  simp only [continueConversation, hstage, stepCategory, hng, Bool.false_eq_true,
    if_false, hsel, List.isEmpty_cons, List.headD_cons, hcust]

theorem step_info_first (env : Env) (gen : GenOracle) (cal : Int -> Int × Int)
    (now : GoTime) (m : Msg) (c : conversationState) (st : Store)
    (infos : List String)
    (hstage : c.Stage = .stageInfoTypes)
    (hng : eqFold m.Text "Готово" = false)
    (hsel : parseSelection m.Text env.infoOptions
      (c.InfoLimit - (c.SelectedInfos.length : Int)) = infos)
    (hne : infos.isEmpty = false) :
    continueConversation env gen cal now m c st =
      (if ((addInfos c.SelectedInfos infos c.InfoLimit).length : Int) < c.InfoLimit
       then keep { c with
                   SelectedInfos := addInfos c.SelectedInfos infos c.InfoLimit,
                   LastMsgID := 0 } st ["prompt_choose_info"]
       else commitInfoTypes gen m
         { c with
           SelectedInfos := addInfos c.SelectedInfos infos c.InfoLimit } st) := by
  simp only [continueConversation, hstage, stepInfoTypes, hng, Bool.false_eq_true,
    if_false, hsel, hne]

theorem step_info_done (env : Env) (gen : GenOracle) (cal : Int -> Int × Int)
    (now : GoTime) (m : Msg) (c : conversationState) (st : Store)
    (hg : eqFold m.Text "Готово" = true)
    (hstage : c.Stage = .stageInfoTypes)
    (hne : c.SelectedInfos.isEmpty = false) :
    continueConversation env gen cal now m c st = commitInfoTypes gen m c st := by
  simp only [continueConversation, hstage, stepInfoTypes, hg, if_true, hne,
    Bool.false_and, Bool.false_eq_true, if_false]

theorem step_category_done (env : Env) (gen : GenOracle) (cal : Int -> Int × Int)
    (now : GoTime) (m : Msg) (c : conversationState) (st : Store)
    (hstage : c.Stage = .stageCategory)
    (hg : eqFold m.Text "Готово" = true)
    (hstep : (c.Step == 0) = false) :
    continueConversation env gen cal now m c st = saveTopics gen m c st := by
  simp only [continueConversation, hstage, stepCategory, hg, if_true, hstep,
    Bool.false_eq_true, if_false]

theorem commit_fresh (gen : GenOracle) (m : Msg) (c : conversationState)
    (st : Store) (hold : c.OldCat = "") (hsc : c.SelectedCats = []) :
    commitInfoTypes gen m c st =
      (if c.Step + 1 ≥ c.CategoryLimit then
        saveTopics gen m
          { c with
            Topics := topicsPut c.Topics c.CurrentCat
              (mergeInfos (topicsIdx c.Topics c.CurrentCat) c.SelectedInfos),
            SelectedInfos := [], Step := c.Step + 1 } st
      else
        keep { c with
               Topics := topicsPut c.Topics c.CurrentCat
                 (mergeInfos (topicsIdx c.Topics c.CurrentCat) c.SelectedInfos),
               SelectedInfos := [], Step := c.Step + 1,
               Stage := .stageCategory, LastMsgID := 0 }
          st ["prompt_choose_category"]) := by
  simp only [commitInfoTypes, hold, hsc, beq_self_eq_true, if_true,
    List.length_nil, Nat.lt_irrefl, false_and, if_false]

/-- One complete valid selection round, started at the category prompt with
`k` categories already configured: the engine merges the round's info types
under the current category and either persists (when the working category
limit is reached) or returns to the category prompt with the step counter
advanced. -/
theorem round_reduce (env : Env) (gen : GenOracle) (cal : Int -> Int × Int)
    (now : GoTime) (chat : Int) (uname : String) (n L : Int) (upd allow : Bool)
    (s : SelInput) (k : Int) (cc : String) (acc : Topics) (st : Store)
    (ts : List String) (hv : SelValid env allow L s) :
    ((n ≤ k + 1) ->
      (runScript env gen cal now chat uname (selScript L s ++ ts)
        { flowStart n L upd allow with
          Step := k, CurrentCat := cc, Topics := acc } st).conv = none ∧
      ∃ u, storeFind (runScript env gen cal now chat uname (selScript L s ++ ts)
          { flowStart n L upd allow with
            Step := k, CurrentCat := cc, Topics := acc } st).store chat = some u ∧
        u.Topics = topicsPut acc s.cat
          (mergeInfos (topicsIdx acc s.cat) (addInfos [] s.infos L))) ∧
    (¬ (n ≤ k + 1) ->
      (runScript env gen cal now chat uname (selScript L s ++ ts)
        { flowStart n L upd allow with
          Step := k, CurrentCat := cc, Topics := acc } st).conv =
      (runScript env gen cal now chat uname ts
        { flowStart n L upd allow with
          Step := k + 1, CurrentCat := s.cat,
          Topics := topicsPut acc s.cat
            (mergeInfos (topicsIdx acc s.cat) (addInfos [] s.infos L)) } st).conv ∧
      (runScript env gen cal now chat uname (selScript L s ++ ts)
        { flowStart n L upd allow with
          Step := k, CurrentCat := cc, Topics := acc } st).store =
      (runScript env gen cal now chat uname ts
        { flowStart n L upd allow with
          Step := k + 1, CurrentCat := s.cat,
          Topics := topicsPut acc s.cat
            (mergeInfos (topicsIdx acc s.cat) (addInfos [] s.infos L)) } st).store) := by
  obtain ⟨hv1, hv2, hv3, hv4, hv5, hv6, hv7⟩ := hv
  have hL1 : 1 ≤ L := by
    rcases hinf : s.infos with _ | ⟨x, xs⟩
    · exact absurd hinf hv6
    · rw [hinf] at hv7
      simp only [List.length_cons] at hv7
      push_cast at hv7
      omega
  have hdne : addInfos [] s.infos L ≠ [] := by
    rcases hinf : s.infos with _ | ⟨x, xs⟩
    · exact absurd hinf hv6
    · exact addInfos_nil_ne_nil x xs L hL1
  have hdie : (addInfos [] s.infos L).isEmpty = false := by
    rcases hded : addInfos [] s.infos L with _ | ⟨d, ds⟩
    · exact absurd hded hdne
    · rfl
  have hcust : (allow && (s.cat == "😇Своя категория")) = false := by
    cases hal : allow
    · rfl
    · simp only [Bool.true_and]
      exact beq_eq_false_iff_ne.mpr (hv3 hal)
  have hsie : s.infos.isEmpty = false := by
    rcases hinf : s.infos with _ | ⟨x, xs⟩
    · exact absurd hinf hv6
    · rfl
  have hgdone : eqFold "Готово" "Готово" = true := by decide
  have hsel2 : parseSelection s.infoText env.infoOptions
      (L - ((([] : List String).length : Nat) : Int)) = s.infos := by
    have h0 : L - ((([] : List String).length : Nat) : Int) = L := by simp
    rw [h0]
    exact hv5
  have hred1 : continueConversation env gen cal now ⟨chat, uname, 0, s.catText⟩
      { flowStart n L upd allow with
        Step := k, CurrentCat := cc, Topics := acc } st =
      keep { flowStart n L upd allow with
             Stage := .stageInfoTypes, Step := k, CurrentCat := s.cat,
             Topics := acc }
        st ["prompt_choose_info"] :=
    step_category_choose env gen cal now _ _ st s.cat rfl hv1 hv2 hcust
  have hred2 : continueConversation env gen cal now ⟨chat, uname, 0, s.infoText⟩
      { flowStart n L upd allow with
        Stage := .stageInfoTypes, Step := k, CurrentCat := s.cat,
        Topics := acc } st =
      (if ((addInfos [] s.infos L).length : Int) < L
       then keep { flowStart n L upd allow with
                   Stage := .stageInfoTypes, Step := k, CurrentCat := s.cat,
                   Topics := acc, SelectedInfos := addInfos [] s.infos L }
         st ["prompt_choose_info"]
       else commitInfoTypes gen ⟨chat, uname, 0, s.infoText⟩
         { flowStart n L upd allow with
           Stage := .stageInfoTypes, Step := k, CurrentCat := s.cat,
           Topics := acc, SelectedInfos := addInfos [] s.infos L } st) :=
    step_info_first env gen cal now _ _ st s.infos rfl hv4 hsel2 hsie
  have hcommit : forall mm : Msg, commitInfoTypes gen mm
      { flowStart n L upd allow with
        Stage := .stageInfoTypes, Step := k, CurrentCat := s.cat,
        Topics := acc, SelectedInfos := addInfos [] s.infos L } st =
      (if n ≤ k + 1 then
        saveTopics gen mm
          { flowStart n L upd allow with
            Stage := .stageInfoTypes, Step := k + 1, CurrentCat := s.cat,
            Topics := topicsPut acc s.cat
              (mergeInfos (topicsIdx acc s.cat) (addInfos [] s.infos L)) } st
      else
        keep { flowStart n L upd allow with
               Step := k + 1, CurrentCat := s.cat,
               Topics := topicsPut acc s.cat
                 (mergeInfos (topicsIdx acc s.cat) (addInfos [] s.infos L)) }
          st ["prompt_choose_category"]) := by
    intro mm
    exact commit_fresh gen mm _ st rfl rfl
  constructor
  · intro hdone
    by_cases hfill : ((addInfos [] s.infos L).length : Int) < L
    · simp only [selScript, if_pos hfill, List.append_assoc, List.cons_append,
        List.nil_append]
      obtain ⟨hc1, hs1⟩ := runScript_keep env gen cal now chat uname s.catText
        (s.infoText :: "Готово" :: ts) _ _ st _ hred1
      rw [hc1, hs1]
      have hred2f : continueConversation env gen cal now
          ⟨chat, uname, 0, s.infoText⟩
          { flowStart n L upd allow with
            Stage := .stageInfoTypes, Step := k, CurrentCat := s.cat,
            Topics := acc } st =
          keep { flowStart n L upd allow with
                 Stage := .stageInfoTypes, Step := k, CurrentCat := s.cat,
                 Topics := acc, SelectedInfos := addInfos [] s.infos L }
            st ["prompt_choose_info"] := by
        rw [hred2]
        exact if_pos hfill
      obtain ⟨hc2, hs2⟩ := runScript_keep env gen cal now chat uname s.infoText
        ("Готово" :: ts) _ _ st _ hred2f
      rw [hc2, hs2]
      have hred3 : continueConversation env gen cal now ⟨chat, uname, 0, "Готово"⟩
          { flowStart n L upd allow with
            Stage := .stageInfoTypes, Step := k, CurrentCat := s.cat,
            Topics := acc, SelectedInfos := addInfos [] s.infos L } st =
          saveTopics gen ⟨chat, uname, 0, "Готово"⟩
            { flowStart n L upd allow with
              Stage := .stageInfoTypes, Step := k + 1, CurrentCat := s.cat,
              Topics := topicsPut acc s.cat
                (mergeInfos (topicsIdx acc s.cat) (addInfos [] s.infos L)) } st := by
        rw [step_info_done env gen cal now ⟨chat, uname, 0, "Готово"⟩ _ st
          hgdone rfl hdie]
        rw [hcommit ⟨chat, uname, 0, "Готово"⟩]
        exact if_pos hdone
      obtain ⟨hsvc, u, hu, hut⟩ := saveTopics_result gen ⟨chat, uname, 0, "Готово"⟩
        { flowStart n L upd allow with
          Stage := .stageInfoTypes, Step := k + 1, CurrentCat := s.cat,
          Topics := topicsPut acc s.cat
            (mergeInfos (topicsIdx acc s.cat) (addInfos [] s.infos L)) } st
      obtain ⟨hc3, hs3⟩ := runScript_done env gen cal now chat uname "Готово" ts
        _ st _ hred3 hsvc
      rw [hc3, hs3]
      exact ⟨rfl, u, hu, hut⟩
    · simp only [selScript, if_neg hfill, List.append_assoc, List.cons_append,
        List.nil_append]
      obtain ⟨hc1, hs1⟩ := runScript_keep env gen cal now chat uname s.catText
        (s.infoText :: ts) _ _ st _ hred1
      rw [hc1, hs1]
      have hred2s : continueConversation env gen cal now
          ⟨chat, uname, 0, s.infoText⟩
          { flowStart n L upd allow with
            Stage := .stageInfoTypes, Step := k, CurrentCat := s.cat,
            Topics := acc } st =
          saveTopics gen ⟨chat, uname, 0, s.infoText⟩
            { flowStart n L upd allow with
              Stage := .stageInfoTypes, Step := k + 1, CurrentCat := s.cat,
              Topics := topicsPut acc s.cat
                (mergeInfos (topicsIdx acc s.cat) (addInfos [] s.infos L)) } st := by
        rw [hred2]
        rw [if_neg hfill]
        rw [hcommit ⟨chat, uname, 0, s.infoText⟩]
        exact if_pos hdone
      obtain ⟨hsvc, u, hu, hut⟩ := saveTopics_result gen
        ⟨chat, uname, 0, s.infoText⟩
        { flowStart n L upd allow with
          Stage := .stageInfoTypes, Step := k + 1, CurrentCat := s.cat,
          Topics := topicsPut acc s.cat
            (mergeInfos (topicsIdx acc s.cat) (addInfos [] s.infos L)) } st
      obtain ⟨hc2, hs2⟩ := runScript_done env gen cal now chat uname s.infoText ts
        _ st _ hred2s hsvc
      rw [hc2, hs2]
      exact ⟨rfl, u, hu, hut⟩
  · intro hdone
    by_cases hfill : ((addInfos [] s.infos L).length : Int) < L
    · simp only [selScript, if_pos hfill, List.append_assoc, List.cons_append,
        List.nil_append]
      obtain ⟨hc1, hs1⟩ := runScript_keep env gen cal now chat uname s.catText
        (s.infoText :: "Готово" :: ts) _ _ st _ hred1
      rw [hc1, hs1]
      have hred2f : continueConversation env gen cal now
          ⟨chat, uname, 0, s.infoText⟩
          { flowStart n L upd allow with
            Stage := .stageInfoTypes, Step := k, CurrentCat := s.cat,
            Topics := acc } st =
          keep { flowStart n L upd allow with
                 Stage := .stageInfoTypes, Step := k, CurrentCat := s.cat,
                 Topics := acc, SelectedInfos := addInfos [] s.infos L }
            st ["prompt_choose_info"] := by
        rw [hred2]
        exact if_pos hfill
      obtain ⟨hc2, hs2⟩ := runScript_keep env gen cal now chat uname s.infoText
        ("Готово" :: ts) _ _ st _ hred2f
      rw [hc2, hs2]
      have hred3 : continueConversation env gen cal now ⟨chat, uname, 0, "Готово"⟩
          { flowStart n L upd allow with
            Stage := .stageInfoTypes, Step := k, CurrentCat := s.cat,
            Topics := acc, SelectedInfos := addInfos [] s.infos L } st =
          keep { flowStart n L upd allow with
                 Step := k + 1, CurrentCat := s.cat,
                 Topics := topicsPut acc s.cat
                   (mergeInfos (topicsIdx acc s.cat) (addInfos [] s.infos L)) }
            st ["prompt_choose_category"] := by
        rw [step_info_done env gen cal now ⟨chat, uname, 0, "Готово"⟩ _ st
          hgdone rfl hdie]
        rw [hcommit ⟨chat, uname, 0, "Готово"⟩]
        exact if_neg hdone
      obtain ⟨hc3, hs3⟩ := runScript_keep env gen cal now chat uname "Готово" ts
        _ _ st _ hred3
      rw [hc3, hs3]
      exact ⟨rfl, rfl⟩
    · simp only [selScript, if_neg hfill, List.append_assoc, List.cons_append,
        List.nil_append]
      obtain ⟨hc1, hs1⟩ := runScript_keep env gen cal now chat uname s.catText
        (s.infoText :: ts) _ _ st _ hred1
      rw [hc1, hs1]
      have hred2k : continueConversation env gen cal now
          ⟨chat, uname, 0, s.infoText⟩
          { flowStart n L upd allow with
            Stage := .stageInfoTypes, Step := k, CurrentCat := s.cat,
            Topics := acc } st =
          keep { flowStart n L upd allow with
                 Step := k + 1, CurrentCat := s.cat,
                 Topics := topicsPut acc s.cat
                   (mergeInfos (topicsIdx acc s.cat) (addInfos [] s.infos L)) }
            st ["prompt_choose_category"] := by
        rw [hred2]
        rw [if_neg hfill]
        rw [hcommit ⟨chat, uname, 0, s.infoText⟩]
        exact if_neg hdone
      obtain ⟨hc2, hs2⟩ := runScript_keep env gen cal now chat uname s.infoText ts
        _ _ st _ hred2k
      rw [hc2, hs2]
      exact ⟨rfl, rfl⟩

/-- Induction over the selection rounds of a configuration flow: from the
category prompt with `k` categories configured, feeding the remaining
rounds' texts (closed by "done" when the limit is not yet reached) removes
the session and persists the engine's merge fold over the rounds. -/
theorem run_flow (env : Env) (gen : GenOracle) (cal : Int -> Int × Int)
    (now : GoTime) (chat : Int) (uname : String) (n L : Int) (upd allow : Bool)
    (sels : List SelInput) :
    forall (k : Int) (cc : String) (acc : Topics) (st : Store),
      (forall s, s ∈ sels -> SelValid env allow L s) ->
      0 ≤ k ->
      k + (sels.length : Int) ≤ n ->
      (sels = [] -> 1 ≤ k ∧ k < n) ->
      (runScript env gen cal now chat uname
          ((sels.map (selScript L)).flatten ++
            (if k + (sels.length : Int) < n then ["Готово"] else []))
          { flowStart n L upd allow with
            Step := k, CurrentCat := cc, Topics := acc }
          st).conv = none ∧
      ∃ u, storeFind (runScript env gen cal now chat uname
          ((sels.map (selScript L)).flatten ++
            (if k + (sels.length : Int) < n then ["Готово"] else []))
          { flowStart n L upd allow with
            Step := k, CurrentCat := cc, Topics := acc }
          st).store chat = some u ∧
        u.Topics = sels.foldl (fun t s => topicsPut t s.cat
          (mergeInfos (topicsIdx t s.cat) (addInfos [] s.infos L))) acc := by
  induction sels with
  | nil =>
    intro k cc acc st _ h0 hlen hemp
    obtain ⟨hk1, hkn⟩ := hemp rfl
    simp only [List.map_nil, List.flatten_nil, List.nil_append, List.length_nil,
      Nat.cast_zero, add_zero, List.foldl_nil]
    rw [if_pos hkn]
    have hgd : eqFold "Готово" "Готово" = true := by decide
    have hred : continueConversation env gen cal now ⟨chat, uname, 0, "Готово"⟩
        { flowStart n L upd allow with
          Step := k, CurrentCat := cc, Topics := acc } st =
        saveTopics gen ⟨chat, uname, 0, "Готово"⟩
          { flowStart n L upd allow with
            Step := k, CurrentCat := cc, Topics := acc } st :=
      step_category_done env gen cal now _ _ st rfl hgd
        (beq_eq_false_iff_ne.mpr (show k ≠ 0 by omega))
    obtain ⟨hsvc, u, hu, hut⟩ := saveTopics_result gen ⟨chat, uname, 0, "Готово"⟩
      { flowStart n L upd allow with
        Step := k, CurrentCat := cc, Topics := acc } st
    obtain ⟨hc1, hs1⟩ := runScript_done env gen cal now chat uname "Готово" []
      _ st _ hred hsvc
    rw [hc1, hs1]
    exact ⟨rfl, u, hu, hut⟩
  | cons s rest ih =>
    intro k cc acc st hval h0 hlen hemp
    have hvs : SelValid env allow L s := hval s (List.mem_cons_self s rest)
    have hlen2 : (k + 1) + (rest.length : Int) ≤ n := by
      simp only [List.length_cons] at hlen
      push_cast at hlen ⊢
      omega
    have harith : k + (((s :: rest).length : Nat) : Int) =
        (k + 1) + ((rest.length : Nat) : Int) := by
      simp only [List.length_cons]
      push_cast
      ring
    simp only [List.map_cons, List.flatten_cons, List.append_assoc]
    rw [harith]
    obtain ⟨hsave, hkeep⟩ := round_reduce env gen cal now chat uname n L upd allow
      s k cc acc st ((rest.map (selScript L)).flatten ++
        (if (k + 1) + ((rest.length : Nat) : Int) < n then ["Готово"] else []))
      hvs
    by_cases hdone : n ≤ k + 1
    · have hrest : rest = [] := by
        rcases hr : rest with _ | ⟨r, rs⟩
        · rfl
        · exfalso
          rw [hr] at hlen2
          simp only [List.length_cons] at hlen2
          push_cast at hlen2
          omega
      subst hrest
      obtain ⟨hc, u, hu, hut⟩ := hsave hdone
      exact ⟨hc, u, hu, hut⟩
    · obtain ⟨hceq, hseq⟩ := hkeep hdone
      rw [hceq, hseq]
      obtain ⟨hc, u, hu, hut⟩ := ih (k + 1) s.cat
        (topicsPut acc s.cat
          (mergeInfos (topicsIdx acc s.cat) (addInfos [] s.infos L))) st
        (fun t ht => hval t (List.mem_cons_of_mem s ht))
        (by omega) hlen2 (fun _ => ⟨by omega, by omega⟩)
      exact ⟨hc, u, hu, hut⟩

/-- C1: for every topic-configuration flow that completes after a sequence
of valid category and info-type selections not exceeding the working
category limit `n` and the per-category info-type limit `L`, the session is
removed and the persisted topics map contains exactly the categories
selected during the flow, each mapped to the info-types chosen for it with
duplicates removed. -/
theorem C1_flow_persists_selected_topics (env : Env) (gen : GenOracle)
    (cal : Int -> Int × Int) (now : GoTime) (chat : Int) (uname : String)
    (n L : Int) (upd allow : Bool) (sels : List SelInput) (st : Store)
    (hval : forall s, s ∈ sels -> SelValid env allow L s)
    (hlen : (sels.length : Int) ≤ n)
    (hne : sels ≠ []) :
    (runScript env gen cal now chat uname (flowScript n L sels)
        (flowStart n L upd allow) st).conv = none ∧
    ∃ u, storeFind (runScript env gen cal now chat uname (flowScript n L sels)
        (flowStart n L upd allow) st).store chat = some u ∧
      u.Topics = expectedTopics L sels ∧
      (forall cat, (topicsFind u.Topics cat).isSome = true ↔
        cat ∈ sels.map (·.cat)) ∧
      (forall cat v, topicsFind u.Topics cat = some v ->
        v.Nodup ∧ forall i, (i ∈ v ↔ ∃ t, t ∈ sels ∧ t.cat = cat ∧ i ∈ t.infos)) := by
  have hmain := run_flow env gen cal now chat uname n L upd allow sels 0 "" [] st
    hval (by omega) (by omega) (fun h => absurd h hne)
  have hstate : ({ flowStart n L upd allow with
      Step := 0, CurrentCat := "", Topics := [] } : conversationState) =
      flowStart n L upd allow := rfl
  have hscript : ((sels.map (selScript L)).flatten ++
      (if (0 : Int) + (sels.length : Int) < n then ["Готово"] else [])) =
      flowScript n L sels := by
    rw [flowScript, zero_add]
  rw [hstate, hscript] at hmain
  obtain ⟨hc, u, hu, hut⟩ := hmain
  have hut2 : u.Topics = expectedTopics L sels := hut
  have hval2 : forall s, s ∈ sels -> (s.infos.length : Int) ≤ L :=
    fun s hs => (hval s hs).2.2.2.2.2.2
  have hnd0 : forall cat v, topicsFind ([] : Topics) cat = some v -> v.Nodup := by
    intro cat v h
    exact Option.noConfusion h
  have hprops := expectedFold_props L sels [] hval2 hnd0
  refine ⟨hc, u, hu, hut2, ?_, ?_⟩
  · intro cat
    have h1 := (hprops cat).1
    rw [hut2, expectedTopics, h1]
    constructor
    · rintro (h | h)
      · exact Bool.noConfusion h
      · exact h
    · intro h
      exact Or.inr h
  · intro cat v hv
    rw [hut2, expectedTopics] at hv
    obtain ⟨hnd, hmem⟩ := (hprops cat).2 v hv
    refine ⟨hnd, ?_⟩
    intro i
    rw [hmem i]
    constructor
    · rintro (⟨w, hw, _⟩ | h)
      · exact Option.noConfusion hw
      · exact h
    · intro h
      exact Or.inr h

/-- Witness for C1 at the specification scenario: limits 2 and 2, category
"Tech" with info types "News" and "Facts", then category "Science" with
"Facts". -/
theorem C1_flow_persists_selected_topics_witness :
    (forall s, s ∈ ([⟨"1", "Tech", "1,2", ["News", "Facts"]⟩,
        ⟨"2", "Science", "2", ["Facts"]⟩] : List SelInput) ->
      SelValid ⟨[("base", demoTariff)], ["Tech", "Science"], ["News", "Facts"]⟩
        false 2 s) ∧
    ((([⟨"1", "Tech", "1,2", ["News", "Facts"]⟩,
        ⟨"2", "Science", "2", ["Facts"]⟩] : List SelInput).length : Int) ≤ 2) ∧
    (([⟨"1", "Tech", "1,2", ["News", "Facts"]⟩,
        ⟨"2", "Science", "2", ["Facts"]⟩] : List SelInput) ≠ []) ∧
    ((runScript ⟨[("base", demoTariff)], ["Tech", "Science"], ["News", "Facts"]⟩
        ⟨fun _ => none, fun _ _ => some "d", fun _ _ => some "d"⟩
        (fun _ => (2024, 100)) ⟨2024, 100, 12, 0, 0, 0, 0⟩ 7 "u"
        (flowScript 2 2 [⟨"1", "Tech", "1,2", ["News", "Facts"]⟩,
          ⟨"2", "Science", "2", ["Facts"]⟩])
        (flowStart 2 2 false false) []).conv = none ∧
     ∃ u, storeFind (runScript
          ⟨[("base", demoTariff)], ["Tech", "Science"], ["News", "Facts"]⟩
          ⟨fun _ => none, fun _ _ => some "d", fun _ _ => some "d"⟩
          (fun _ => (2024, 100)) ⟨2024, 100, 12, 0, 0, 0, 0⟩ 7 "u"
          (flowScript 2 2 [⟨"1", "Tech", "1,2", ["News", "Facts"]⟩,
            ⟨"2", "Science", "2", ["Facts"]⟩])
          (flowStart 2 2 false false) []).store 7 = some u ∧
       u.Topics = expectedTopics 2 [⟨"1", "Tech", "1,2", ["News", "Facts"]⟩,
         ⟨"2", "Science", "2", ["Facts"]⟩] ∧
       (forall cat, (topicsFind u.Topics cat).isSome = true ↔
         cat ∈ ([⟨"1", "Tech", "1,2", ["News", "Facts"]⟩,
           ⟨"2", "Science", "2", ["Facts"]⟩] : List SelInput).map (·.cat)) ∧
       (forall cat v, topicsFind u.Topics cat = some v ->
         v.Nodup ∧ forall i, (i ∈ v ↔
           ∃ t, t ∈ ([⟨"1", "Tech", "1,2", ["News", "Facts"]⟩,
             ⟨"2", "Science", "2", ["Facts"]⟩] : List SelInput) ∧
             t.cat = cat ∧ i ∈ t.infos))) :=
  ⟨by unfold SelValid; decide, by decide, List.cons_ne_nil _ _,
   C1_flow_persists_selected_topics _ _ _ _ _ _ _ _ _ _ _ _
     (by unfold SelValid; decide) (by decide) (List.cons_ne_nil _ _)⟩

end STB
